import Mathlib

/-!
Shallow embedding of `cleanup-sra-dev.py`, a cross-account AWS SRA cleanup
orchestrator.  Provider behaviour (the AWS API) is modelled by explicit
environment structures; each handler is translated as a pure function from
an environment and a `CleanupReport` to an updated report, a trace of issued
provider calls, and the value of its local `deleted_count` counter.
-/

set_option maxHeartbeats 1000000

/-! ### Case-insensitive substring matching (`'sra' in name.lower()`) -/

/-- Character-list version of the check that `needle` occurs at the start. -/
def isPrefixL : List Char → List Char → Bool
  | [], _ => true
  | _ :: _, [] => false
  | a :: as, b :: bs => a = b && isPrefixL as bs

/-- `needle` occurs somewhere inside the haystack. -/
def hasSubstr (needle : List Char) : List Char → Bool
  | [] => isPrefixL needle []
  | c :: rest => isPrefixL needle (c :: rest) || hasSubstr needle rest

/-- The single selection predicate of the tool: `'sra' in name.lower()`. -/
def matchesSra (name : String) : Bool :=
  hasSubstr "sra".data (name.data.map Char.toLower)

/-! ### Chunking (`for i in range(0, len(xs), n): xs[i:i+n]`) -/

/-- Structurally recursive worker for `chunksOf`; the fuel starts at the
length of the list, which always suffices. -/
def chunksOfFuel (n : Nat) : Nat → List α → List (List α)
  | _, [] => []
  | 0, x :: xs => [x :: xs]
  | fuel + 1, x :: xs =>
    if n = 0 then [x :: xs]
    else (x :: xs).take n :: chunksOfFuel n fuel ((x :: xs).drop n)

/-- Split a list into consecutive chunks of size `n` (the whole list when
`n = 0`, mirroring an unpaginated provider response). -/
def chunksOf (n : Nat) (xs : List α) : List (List α) :=
  chunksOfFuel n xs.length xs

theorem chunksOfFuel_congr {α : Type} (n : Nat) (fuel : Nat) :
    ∀ xs : List α, xs.length ≤ fuel → chunksOfFuel n fuel xs = chunksOf n xs := by
  induction fuel using Nat.strong_induction_on with
  | _ fuel ih =>
    intro xs hxs
    cases xs with
    | nil => cases fuel <;> rfl
    | cons x l =>
      cases fuel with
      | zero => simp at hxs
      | succ fuel =>
        simp only [List.length_cons] at hxs
        have hxs2 : l.length ≤ fuel := by omega
        by_cases h0 : n = 0
        · simp [chunksOf, chunksOfFuel, List.length_cons, h0]
        · have hd1 : ((x :: l).drop n).length ≤ fuel := by
            simp only [List.length_drop, List.length_cons]
            omega
          have hd2 : ((x :: l).drop n).length ≤ l.length := by
            simp only [List.length_drop, List.length_cons]
            omega
          simp only [chunksOf, List.length_cons, chunksOfFuel, h0, if_false]
          rw [ih fuel (Nat.lt_succ_self _) _ hd1,
            ih l.length (Nat.lt_succ_of_le hxs2) _ hd2]

/-- The defining equation of `chunksOf`. -/
theorem chunksOf_eq {α : Type} (n : Nat) (xs : List α) :
    chunksOf n xs = (match xs with
      | [] => []
      | x :: l =>
        if n = 0 then [x :: l]
        else (x :: l).take n :: chunksOf n ((x :: l).drop n)) := by
  cases xs with
  | nil => rfl
  | cons x l =>
    simp only [chunksOf, List.length_cons, chunksOfFuel]
    by_cases h0 : n = 0
    · simp [h0]
    · simp only [h0, if_false]
      rw [chunksOfFuel_congr n l.length _ (by simp [List.length_drop]; omega)]
      rfl

theorem chunksOf_flatten {α : Type} (n : Nat) (xs : List α) :
    (chunksOf n xs).flatten = xs := by
  generalize hL : xs.length = L
  induction L using Nat.strong_induction_on generalizing xs with
  | _ L ih =>
    cases xs with
    | nil => rfl
    | cons x xs =>
      rw [chunksOf_eq]
      by_cases h : n = 0
      · simp [h]
      · simp only [h, if_false, List.flatten_cons]
        rw [ih ((x :: xs).drop n).length _ _ rfl]
        · exact List.take_append_drop n (x :: xs)
        · subst hL
          simp [List.length_drop]
          omega

theorem chunksOf_mem_length {α : Type} (n : Nat) (hn : n ≠ 0) (xs : List α)
    (c : List α) (hc : c ∈ chunksOf n xs) : c.length ≤ n := by
  generalize hL : xs.length = L
  induction L using Nat.strong_induction_on generalizing xs c with
  | _ L ih =>
    cases xs with
    | nil => simp [chunksOf, chunksOfFuel] at hc
    | cons x xs =>
      rw [chunksOf_eq] at hc
      simp only [hn, if_false, List.mem_cons] at hc
      cases hc with
      | inl h =>
        subst h
        simp [List.length_take]
      | inr h =>
        exact ih ((x :: xs).drop n).length
          (by subst hL; simp [List.length_drop]; omega) _ c h rfl

/-- The first page of a chunked response covers everything when the data
fits in one page (or the response is unpaginated, `n = 0`). -/
theorem chunksOf_headD_of_fits {α : Type} (n : Nat) (xs : List α)
    (h : n = 0 ∨ xs.length ≤ n) : (chunksOf n xs).headD [] = xs := by
  cases xs with
  | nil => rfl
  | cons x xs =>
    rw [chunksOf_eq]
    cases h with
    | inl h0 => simp [h0]
    | inr hle =>
      by_cases h0 : n = 0
      · simp [h0]
      · simp only [h0, if_false, List.headD_cons]
        exact List.take_of_length_le hle

/-! ### The report aggregator (`class CleanupReport`) -/

/-- One entry of `cleanup_report.errors[key]`. -/
structure ErrorEntry where
  resource_type : String
  resource_name : String
  error : String
  region : Option String
deriving DecidableEq, Repr

/-- One entry of `cleanup_report.successes[key]`. -/
structure SuccessEntry where
  resource_type : String
  resource_name : String
  region : Option String
deriving DecidableEq, Repr

/-- `f"{account_name} ({region})" if region else account_name`. -/
def reportKey (account_name : String) (region : Option String) : String :=
  match region with
  | some r => account_name ++ " (" ++ r ++ ")"
  | none => account_name

/-- The process-wide report: errors, successes (append-at-end, keyed), and
the found/deleted count dictionaries (assignment semantics: newest entry
first, lookups take the most recent assignment). -/
structure CleanupReport where
  errors : List (String × ErrorEntry)
  successes : List (String × SuccessEntry)
  resources_found : List (String × String × Nat)
  resources_deleted : List (String × String × Nat)
deriving DecidableEq, Repr

def emptyReport : CleanupReport := ⟨[], [], [], []⟩

def CleanupReport.add_error (rep : CleanupReport) (account_name resource_type
    resource_name error_msg : String) (region : Option String) : CleanupReport :=
  { rep with errors := rep.errors ++
      [(reportKey account_name region,
        ⟨resource_type, resource_name, error_msg, region⟩)] }

def CleanupReport.add_success (rep : CleanupReport) (account_name resource_type
    resource_name : String) (region : Option String) : CleanupReport :=
  { rep with successes := rep.successes ++
      [(reportKey account_name region, ⟨resource_type, resource_name, region⟩)] }

def CleanupReport.add_resource_found (rep : CleanupReport) (account_name
    resource_type : String) (count : Nat) (region : Option String) : CleanupReport :=
  { rep with resources_found :=
      (reportKey account_name region, resource_type, count) :: rep.resources_found }

def CleanupReport.add_resource_deleted (rep : CleanupReport) (account_name
    resource_type : String) (count : Nat) (region : Option String) : CleanupReport :=
  { rep with resources_deleted :=
      (reportKey account_name region, resource_type, count) :: rep.resources_deleted }

/-- Look up the count stored for `(key, resource_type)`; `0` when absent. -/
def getCount (l : List (String × String × Nat)) (key ty : String) : Nat :=
  match l.find? (fun e => e.1 == key && e.2.1 == ty) with
  | some e => e.2.2
  | none => 0

/-- `total_errors = sum(len(errors) for errors in self.errors.values())`. -/
def total_errors (rep : CleanupReport) : Nat := rep.errors.length

/-- `total_successes`, analogously. -/
def total_successes (rep : CleanupReport) : Nat := rep.successes.length

/-- The concluding status line of `print_summary` is the success variant
exactly when no error was recorded (lines 137-141 of the source). -/
def summary_reports_ok (rep : CleanupReport) : Bool := total_errors rep == 0

/-- The final block of `main` prints the success variant exactly when every
account was processed successfully (line 766 of the source). -/
def final_block_reports_ok (success_count total_accounts : Nat) : Bool :=
  success_count == total_accounts

/-! ### Provider call trace -/

/-- The fixed region catalog (`SRA_REGIONS`). -/
def SRA_REGIONS : List String := ["us-east-1", "us-west-2"]

/-- One provider API call issued by a teardown protocol. -/
inductive Event where
  | deleteStack (name region : String)
  | waitStackDelete (name region : String) (delay maxAttempts : Nat)
  | describeStack (name region : String)
  | deleteFunction (name region : String)
  | detachRolePolicy (role policyArn : String)
  | deleteRolePolicy (role policyName : String)
  | deleteRole (name : String)
  | deleteParameters (region : String) (names : List String)
  | deleteLogGroup (name region : String)
  | deleteObject (bucket key versionId : String)
  | deleteBucket (name : String)
  | deleteStackInstances (stackset : String) (accounts regions : List String)
  | sleepSecs (n : Nat)
  | deleteStackSet (name : String)
deriving DecidableEq, Repr

/-! ### Shared per-region discovery loop

Every per-region handler runs the same loop over `SRA_REGIONS`: list the
entities (a `ClientError` is recorded as a `"listado"` error for that region
and the loop continues), filter names by `matchesSra`, record the found
count when non-zero, and extend the accumulated `(name, region)` list. -/

def discover_regions_go (getRegion : String → Option String × List (List String))
    (account_name tyPlural : String) :
    List String → CleanupReport → CleanupReport × List (String × String)
  | [], rep => (rep, [])
  | region :: rest, rep =>
    match getRegion region with
    | (some e, _) =>
      discover_regions_go getRegion account_name tyPlural rest
        (rep.add_error account_name tyPlural "listado" e (some region))
    | (none, pages) =>
      let names := pages.flatten.filter matchesSra
      if names.isEmpty then
        discover_regions_go getRegion account_name tyPlural rest rep
      else
        let rep1 := rep.add_resource_found account_name tyPlural names.length (some region)
        let r := discover_regions_go getRegion account_name tyPlural rest rep1
        (r.1, names.map (fun n => (n, region)) ++ r.2)

def discover_regions (getRegion : String → Option String × List (List String))
    (account_name tyPlural : String) (rep : CleanupReport) :
    CleanupReport × List (String × String) :=
  discover_regions_go getRegion account_name tyPlural SRA_REGIONS rep

/-! ### CloudFormation stacks (`list_cloudformation_stacks`) -/

/-- Result of the fallback `describe_stacks` call. -/
inductive QueryRes where
  | ok (status : String)
  | raised (msg : String)
deriving DecidableEq, Repr

/-- Per-region provider behaviour for the stack handler: the stacks living in
the region (name, status), the page size of `list_stacks` (0 = unpaginated),
and the outcome of each per-stack call keyed by stack name (`delErr` for
`delete_stack` raising, `waitErr` for the waiter raising or timing out,
`queryRes` for the fallback `describe_stacks`; a name absent from `delErr`
or `waitErr` means the call succeeded). -/
structure StackRegionEnv where
  listErr : Option String
  pageSize : Nat
  stackList : List (String × String)
  delErr : List (String × String)
  waitErr : List (String × String)
  queryRes : List (String × QueryRes)

/-- The six-status allowlist passed to `list_stacks` (`StackStatusFilter`). -/
def stackStatusFilter : List String :=
  ["CREATE_COMPLETE", "UPDATE_COMPLETE", "UPDATE_ROLLBACK_COMPLETE",
   "CREATE_FAILED", "DELETE_FAILED", "ROLLBACK_COMPLETE"]

/-- The stack names the single `list_stacks` call returns: the provider keeps
only stacks whose status is in the allowlist and pages the result; the code
reads one response and ignores any `NextToken`, so only the first page is
seen. -/
def stack_list_response (e : StackRegionEnv) : List String :=
  ((chunksOf e.pageSize
      (e.stackList.filter (fun p => stackStatusFilter.contains p.2))).headD []).map (fun p => p.1)

/-- Teardown of one stack: issue `delete_stack`, wait with
`WaiterConfig Delay 10 MaxAttempts 60`; if the waiter raises, re-query the
status once and classify it. Returns the report, the trace, and the
increment applied to `deleted_count`. -/
def stack_delete_one (e : StackRegionEnv) (account_name name region : String)
    (rep : CleanupReport) : CleanupReport × List Event × Nat :=
  match e.delErr.lookup name with
  | some err =>
    (rep.add_error account_name "CloudFormation Stack" name err (some region),
     [Event.deleteStack name region], 0)
  | none =>
    match e.waitErr.lookup name with
    | none =>
      (rep.add_success account_name "CloudFormation Stack" name (some region),
       [Event.deleteStack name region, Event.waitStackDelete name region 10 60], 1)
    | some _ =>
      let tr := [Event.deleteStack name region, Event.waitStackDelete name region 10 60,
                 Event.describeStack name region]
      match (e.queryRes.lookup name).getD (QueryRes.raised "sin respuesta") with
      | QueryRes.ok st =>
        if st == "DELETE_COMPLETE" then
          (rep.add_success account_name "CloudFormation Stack" name (some region), tr, 1)
        else if st == "DELETE_FAILED" then
          (rep.add_error account_name "CloudFormation Stack" name
            ("Estado: " ++ st ++ " - Requiere eliminación manual") (some region), tr, 0)
        else
          (rep.add_error account_name "CloudFormation Stack" name
            ("Estado: " ++ st) (some region), tr, 0)
      | QueryRes.raised msg =>
        (rep.add_error account_name "CloudFormation Stack" name msg (some region), tr, 0)

def stack_delete_loop (env : String → StackRegionEnv) (account_name : String) :
    List (String × String) → CleanupReport → CleanupReport × List Event × Nat
  | [], rep => (rep, [], 0)
  | (name, region) :: rest, rep =>
    let r1 := stack_delete_one (env region) account_name name region rep
    let r2 := stack_delete_loop env account_name rest r1.1
    (r2.1, r1.2.1 ++ r2.2.1, r1.2.2 + r2.2.2)

def list_cloudformation_stacks (env : String → StackRegionEnv) (account_name : String)
    (delete_mode : Bool) (rep : CleanupReport) : CleanupReport × List Event × Nat :=
  let d := discover_regions
      (fun r => ((env r).listErr, [stack_list_response (env r)])) account_name
      "CloudFormation Stacks" rep
  if d.2.isEmpty then (d.1, [], 0)
  else if delete_mode then
    let r := stack_delete_loop env account_name d.2 d.1
    (r.1.add_resource_deleted account_name "CloudFormation Stacks" r.2.2 none, r.2.1, r.2.2)
  else (d.1, [], 0)

/-! ### Lambda functions (`list_lambda_functions`) -/

/-- Per-region provider behaviour for the single-delete-call handlers:
listing outcome, the pages of entity names, and per-name delete outcomes
(absent from `deleteErr` = the delete call succeeded). -/
structure RegionEnv where
  listErr : Option String
  pages : List (List String)
  deleteErr : List (String × String)

def lambda_delete_loop (env : String → RegionEnv) (account_name : String) :
    List (String × String) → CleanupReport → CleanupReport × List Event × Nat
  | [], rep => (rep, [], 0)
  | (name, region) :: rest, rep =>
    match ((env region).deleteErr).lookup name with
    | some e =>
      let r := lambda_delete_loop env account_name rest
        (rep.add_error account_name "Lambda Function" name e (some region))
      (r.1, Event.deleteFunction name region :: r.2.1, r.2.2)
    | none =>
      let r := lambda_delete_loop env account_name rest
        (rep.add_success account_name "Lambda Function" name (some region))
      (r.1, Event.deleteFunction name region :: r.2.1, r.2.2 + 1)

def list_lambda_functions (env : String → RegionEnv) (account_name : String)
    (delete_mode : Bool) (rep : CleanupReport) : CleanupReport × List Event × Nat :=
  let d := discover_regions (fun r => ((env r).listErr, (env r).pages))
      account_name "Lambda Functions" rep
  if d.2.isEmpty then (d.1, [], 0)
  else if delete_mode then
    let r := lambda_delete_loop env account_name d.2 d.1
    (r.1.add_resource_deleted account_name "Lambda Functions" r.2.2 none, r.2.1, r.2.2)
  else (d.1, [], 0)

/-! ### CloudWatch log groups (`list_cloudwatch_log_groups`) -/

def logs_delete_loop (env : String → RegionEnv) (account_name : String) :
    List (String × String) → CleanupReport → CleanupReport × List Event × Nat
  | [], rep => (rep, [], 0)
  | (name, region) :: rest, rep =>
    match ((env region).deleteErr).lookup name with
    | some e =>
      let r := logs_delete_loop env account_name rest
        (rep.add_error account_name "CloudWatch Log Group" name e (some region))
      (r.1, Event.deleteLogGroup name region :: r.2.1, r.2.2)
    | none =>
      let r := logs_delete_loop env account_name rest
        (rep.add_success account_name "CloudWatch Log Group" name (some region))
      (r.1, Event.deleteLogGroup name region :: r.2.1, r.2.2 + 1)

def list_cloudwatch_log_groups (env : String → RegionEnv) (account_name : String)
    (delete_mode : Bool) (rep : CleanupReport) : CleanupReport × List Event × Nat :=
  let d := discover_regions (fun r => ((env r).listErr, (env r).pages))
      account_name "CloudWatch Log Groups" rep
  if d.2.isEmpty then (d.1, [], 0)
  else if delete_mode then
    let r := logs_delete_loop env account_name d.2 d.1
    (r.1.add_resource_deleted account_name "CloudWatch Log Groups" r.2.2 none, r.2.1, r.2.2)
  else (d.1, [], 0)

/-! ### SSM parameters (`list_ssm_parameters`) -/

/-- Per-region provider behaviour for the SSM handler: batched deletes are
keyed by the whole batch (`delete_parameters(Names=batch)` either succeeds
or raises for the batch as a whole). -/
structure SsmRegionEnv where
  listErr : Option String
  pages : List (List String)
  batchErr : List (List String × String)

def ssm_add_batch_success (account_name region : String) :
    List String → CleanupReport → CleanupReport
  | [], rep => rep
  | p :: rest, rep =>
    ssm_add_batch_success account_name region rest
      (rep.add_success account_name "SSM Parameter" p (some region))

def ssm_add_batch_error (account_name region e : String) :
    List String → CleanupReport → CleanupReport
  | [], rep => rep
  | p :: rest, rep =>
    ssm_add_batch_error account_name region e rest
      (rep.add_error account_name "SSM Parameter" p e (some region))

/-- A chunk's success or failure is attributed to every name in the chunk. -/
def ssm_delete_batches (benv : List (List String × String))
    (account_name region : String) :
    List (List String) → CleanupReport → CleanupReport × List Event × Nat
  | [], rep => (rep, [], 0)
  | batch :: rest, rep =>
    match benv.lookup batch with
    | some e =>
      let r := ssm_delete_batches benv account_name region rest
        (ssm_add_batch_error account_name region e batch rep)
      (r.1, Event.deleteParameters region batch :: r.2.1, r.2.2)
    | none =>
      let r := ssm_delete_batches benv account_name region rest
        (ssm_add_batch_success account_name region batch rep)
      (r.1, Event.deleteParameters region batch :: r.2.1, r.2.2 + batch.length)

/-- Group the discovered parameters by region (in `SRA_REGIONS` order, the
insertion order of `parameters_by_region`) and delete each region's names in
chunks of at most 10. -/
def ssm_delete_regions (env : String → SsmRegionEnv) (account_name : String)
    (found : List (String × String)) :
    List String → CleanupReport → CleanupReport × List Event × Nat
  | [], rep => (rep, [], 0)
  | region :: rest, rep =>
    let names := (found.filter (fun p => p.2 == region)).map (fun p => p.1)
    let r1 := ssm_delete_batches (env region).batchErr account_name region
      (chunksOf 10 names) rep
    let r2 := ssm_delete_regions env account_name found rest r1.1
    (r2.1, r1.2.1 ++ r2.2.1, r1.2.2 + r2.2.2)

def list_ssm_parameters (env : String → SsmRegionEnv) (account_name : String)
    (delete_mode : Bool) (rep : CleanupReport) : CleanupReport × List Event × Nat :=
  let d := discover_regions (fun r => ((env r).listErr, (env r).pages))
      account_name "SSM Parameters" rep
  if d.2.isEmpty then (d.1, [], 0)
  else if delete_mode then
    let r := ssm_delete_regions env account_name d.2 SRA_REGIONS d.1
    (r.1.add_resource_deleted account_name "SSM Parameters" r.2.2 none, r.2.1, r.2.2)
  else (d.1, [], 0)

/-! ### IAM roles (`list_iam_roles`) -/

/-- One role and the behaviour of every provider call its teardown makes:
attached policies as `(PolicyName, PolicyArn, detach outcome)`, inline
policies as `(PolicyName, delete outcome)`, and the `delete_role` outcome.
`none` means the call succeeds. -/
structure RoleSpec where
  name : String
  listAttachedErr : Option String
  attached : List (String × String × Option String)
  listInlineErr : Option String
  inlinePolicies : List (String × Option String)
  deleteErr : Option String

/-- Detach every attached managed policy; the first raising call aborts. -/
def detach_policies (role : String) :
    List (String × String × Option String) → List Event × Option String
  | [] => ([], none)
  | (_, arn, res) :: rest =>
    match res with
    | some e => ([Event.detachRolePolicy role arn], some e)
    | none =>
      let r := detach_policies role rest
      (Event.detachRolePolicy role arn :: r.1, r.2)

/-- Delete every inline policy; the first raising call aborts. -/
def delete_inline_policies (role : String) :
    List (String × Option String) → List Event × Option String
  | [] => ([], none)
  | (pname, res) :: rest =>
    match res with
    | some e => ([Event.deleteRolePolicy role pname], some e)
    | none =>
      let r := delete_inline_policies role rest
      (Event.deleteRolePolicy role pname :: r.1, r.2)

/-- Teardown of one role.  All steps live in one `try` block: the first
`ClientError` anywhere jumps to the single `except`, which records one
error entry for the role. -/
def iam_delete_role_one (spec : RoleSpec) (account_name : String)
    (rep : CleanupReport) : CleanupReport × List Event × Nat :=
  match spec.listAttachedErr with
  | some e => (rep.add_error account_name "IAM Role" spec.name e none, [], 0)
  | none =>
    let d := detach_policies spec.name spec.attached
    match d.2 with
    | some e => (rep.add_error account_name "IAM Role" spec.name e none, d.1, 0)
    | none =>
      match spec.listInlineErr with
      | some e => (rep.add_error account_name "IAM Role" spec.name e none, d.1, 0)
      | none =>
        let i := delete_inline_policies spec.name spec.inlinePolicies
        match i.2 with
        | some e =>
          (rep.add_error account_name "IAM Role" spec.name e none, d.1 ++ i.1, 0)
        | none =>
          let tr := d.1 ++ i.1 ++ [Event.deleteRole spec.name]
          match spec.deleteErr with
          | some e => (rep.add_error account_name "IAM Role" spec.name e none, tr, 0)
          | none => (rep.add_success account_name "IAM Role" spec.name none, tr, 1)

def iam_delete_loop (account_name : String) :
    List RoleSpec → CleanupReport → CleanupReport × List Event × Nat
  | [], rep => (rep, [], 0)
  | spec :: rest, rep =>
    let r1 := iam_delete_role_one spec account_name rep
    let r2 := iam_delete_loop account_name rest r1.1
    (r2.1, r1.2.1 ++ r2.2.1, r1.2.2 + r2.2.2)

/-- Account-global behaviour for the IAM handler: paginated role listing. -/
structure IamEnv where
  listErr : Option String
  rolePages : List (List RoleSpec)

def list_iam_roles (env : IamEnv) (account_name : String) (delete_mode : Bool)
    (rep : CleanupReport) : CleanupReport × List Event × Nat :=
  match env.listErr with
  | some e => (rep.add_error account_name "IAM Roles" "listado" e none, [], 0)
  | none =>
    let sra_roles := env.rolePages.flatten.filter (fun s => matchesSra s.name)
    if sra_roles.isEmpty then (rep, [], 0)
    else
      let rep1 := rep.add_resource_found account_name "IAM Roles" sra_roles.length none
      if delete_mode then
        let r := iam_delete_loop account_name sra_roles rep1
        (r.1.add_resource_deleted account_name "IAM Roles" r.2.2 none, r.2.1, r.2.2)
      else (rep1, [], 0)

/-! ### S3 buckets (`list_s3_buckets`) -/

/-- One `delete_object` call of the emptying loop (`res = none` succeeds). -/
structure ObjDel where
  key : String
  versionId : String
  res : Option String

/-- One bucket and the behaviour of every call its teardown makes.  The
emptying loop flattens the paginated object versions followed by the delete
markers of each page, in provider order. -/
structure BucketSpec where
  name : String
  listObjectsErr : Option String
  objs : List ObjDel
  deleteErr : Option String

/-- Empty the bucket object by object; the first raising call aborts. -/
def s3_empty_bucket (bucket : String) : List ObjDel → List Event × Option String
  | [] => ([], none)
  | o :: rest =>
    match o.res with
    | some e => ([Event.deleteObject bucket o.key o.versionId], some e)
    | none =>
      let r := s3_empty_bucket bucket rest
      (Event.deleteObject bucket o.key o.versionId :: r.1, r.2)

/-- Teardown of one bucket.  Emptying and `delete_bucket` live in one `try`
block: the first `ClientError` anywhere jumps to the single `except`, which
records one error entry for the bucket. -/
def s3_delete_bucket_one (spec : BucketSpec) (account_name : String)
    (rep : CleanupReport) : CleanupReport × List Event × Nat :=
  match spec.listObjectsErr with
  | some e => (rep.add_error account_name "S3 Bucket" spec.name e none, [], 0)
  | none =>
    let emp := s3_empty_bucket spec.name spec.objs
    match emp.2 with
    | some e => (rep.add_error account_name "S3 Bucket" spec.name e none, emp.1, 0)
    | none =>
      let tr := emp.1 ++ [Event.deleteBucket spec.name]
      match spec.deleteErr with
      | some e => (rep.add_error account_name "S3 Bucket" spec.name e none, tr, 0)
      | none => (rep.add_success account_name "S3 Bucket" spec.name none, tr, 1)

def s3_delete_loop (account_name : String) :
    List BucketSpec → CleanupReport → CleanupReport × List Event × Nat
  | [], rep => (rep, [], 0)
  | spec :: rest, rep =>
    let r1 := s3_delete_bucket_one spec account_name rep
    let r2 := s3_delete_loop account_name rest r1.1
    (r2.1, r1.2.1 ++ r2.2.1, r1.2.2 + r2.2.2)

/-- Account-global behaviour for the S3 handler (`list_buckets` is a single
unpaginated call in the source). -/
structure S3Env where
  listErr : Option String
  buckets : List BucketSpec

def list_s3_buckets (env : S3Env) (account_name : String) (delete_mode : Bool)
    (rep : CleanupReport) : CleanupReport × List Event × Nat :=
  match env.listErr with
  | some e => (rep.add_error account_name "S3 Buckets" "listado" e none, [], 0)
  | none =>
    let sra_buckets := env.buckets.filter (fun b => matchesSra b.name)
    if sra_buckets.isEmpty then (rep, [], 0)
    else
      let rep1 := rep.add_resource_found account_name "S3 Buckets" sra_buckets.length none
      if delete_mode then
        let r := s3_delete_loop account_name sra_buckets rep1
        (r.1.add_resource_deleted account_name "S3 Buckets" r.2.2 none, r.2.1, r.2.2)
      else (rep1, [], 0)

/-! ### CloudFormation StackSets (`list_cloudformation_stacksets`) -/

/-- One stack set and the behaviour of every call its teardown makes:
instances as `(Account, Region)` pairs, per-batch retraction outcomes keyed
by the batch, and the final `delete_stack_set` outcome. -/
structure StackSetSpec where
  name : String
  status : String
  listInstancesErr : Option String
  instances : List (String × String)
  instBatchErr : List (List (String × String) × String)
  deleteErr : Option String

/-- Retract the instances in chunks of at most 10; a failing batch records
an error entry and the loop continues with the next batch; a successful
batch is followed by `time.sleep(10)`. -/
def stackset_retract_batches (spec : StackSetSpec) (account_name : String) :
    List (List (String × String)) → CleanupReport → CleanupReport × List Event
  | [], rep => (rep, [])
  | batch :: rest, rep =>
    let accounts := batch.map (fun p => p.1)
    let regions := batch.map (fun p => p.2)
    match spec.instBatchErr.lookup batch with
    | some e =>
      let r := stackset_retract_batches spec account_name rest
        (rep.add_error account_name "CloudFormation StackSet Instances" spec.name e none)
      (r.1, Event.deleteStackInstances spec.name accounts regions :: r.2)
    | none =>
      let r := stackset_retract_batches spec account_name rest rep
      (r.1, Event.deleteStackInstances spec.name accounts regions ::
        Event.sleepSecs 10 :: r.2)

/-- Teardown of one stack set: enumerate instances, retract them in batches,
then issue `delete_stack_set`. -/
def stackset_delete_one (spec : StackSetSpec) (account_name : String)
    (rep : CleanupReport) : CleanupReport × List Event × Nat :=
  match spec.listInstancesErr with
  | some e => (rep.add_error account_name "CloudFormation StackSet" spec.name e none, [], 0)
  | none =>
    let r1 := stackset_retract_batches spec account_name (chunksOf 10 spec.instances) rep
    let tr := r1.2 ++ [Event.deleteStackSet spec.name]
    match spec.deleteErr with
    | some e =>
      (r1.1.add_error account_name "CloudFormation StackSet" spec.name e none, tr, 0)
    | none =>
      (r1.1.add_success account_name "CloudFormation StackSet" spec.name none, tr, 1)

def stackset_delete_loop (account_name : String) :
    List StackSetSpec → CleanupReport → CleanupReport × List Event × Nat
  | [], rep => (rep, [], 0)
  | spec :: rest, rep =>
    let r1 := stackset_delete_one spec account_name rep
    let r2 := stackset_delete_loop account_name rest r1.1
    (r2.1, r1.2.1 ++ r2.2.1, r1.2.2 + r2.2.2)

/-- Account-global behaviour for the StackSet handler: paginated summaries. -/
structure StackSetEnv where
  listErr : Option String
  pages : List (List StackSetSpec)

def list_cloudformation_stacksets (env : StackSetEnv) (account_name : String)
    (delete_mode : Bool) (rep : CleanupReport) : CleanupReport × List Event × Nat :=
  match env.listErr with
  | some e =>
    (rep.add_error account_name "CloudFormation StackSets" "listado" e none, [], 0)
  | none =>
    let sra_stacksets := env.pages.flatten.filter
      (fun s => matchesSra s.name && s.status != "DELETED")
    if sra_stacksets.isEmpty then (rep, [], 0)
    else
      let rep1 := rep.add_resource_found account_name "CloudFormation StackSets"
        sra_stacksets.length none
      if delete_mode then
        let r := stackset_delete_loop account_name sra_stacksets rep1
        (r.1.add_resource_deleted account_name "CloudFormation StackSets" r.2.2 none,
         r.2.1, r.2.2)
      else (rep1, [], 0)

/-! ### Account orchestrator (`scan_account`) -/

/-- Tag naming each of the seven resource handlers. -/
inductive HandlerTag where
  | stackH
  | functionH
  | roleH
  | parameterH
  | logGroupH
  | bucketH
  | stackSetH
deriving DecidableEq, Repr

/-- A handler as the orchestrator sees it: it may update the report, issues
provider calls, and may let an uncaught exception escape (`some msg`). -/
def Handler : Type := CleanupReport → CleanupReport × List Event × Option String

/-- The concrete handlers modelled above catch every `ClientError`
themselves, so as orchestrator steps they never let an exception escape. -/
def toHandler (f : CleanupReport → CleanupReport × List Event × Nat) : Handler :=
  fun rep =>
    match f rep with
    | (rep1, tr, _) => (rep1, tr, none)

/-- Run the handlers in order inside the single `try` block of
`scan_account`: the first uncaught exception stops the sequence.  Also
returns the list of handler tags that were actually invoked. -/
def runHandlers : List (HandlerTag × Handler) → CleanupReport →
    CleanupReport × List Event × List HandlerTag × Option String
  | [], rep => (rep, [], [], none)
  | (t, h) :: rest, rep =>
    match h rep with
    | (rep1, tr, some e) => (rep1, tr, [t], some e)
    | (rep1, tr, none) =>
      let r := runHandlers rest rep1
      (r.1, tr ++ r.2.1, t :: r.2.2.1, r.2.2.2)

/-- `scan_account`: acquire the session; on failure record one connection
error and return false.  Otherwise run the handlers; an uncaught exception
is recorded as one "Proceso General" error and the function returns false;
otherwise it returns true. -/
def scan_account (account_name : String) (sessionOk : Bool)
    (hs : List (HandlerTag × Handler)) (rep : CleanupReport) :
    CleanupReport × List Event × List HandlerTag × Bool :=
  if sessionOk then
    match runHandlers hs rep with
    | (rep1, tr, tags, some e) =>
      (rep1.add_error account_name "Proceso General" "scan_account" e none,
       tr, tags, false)
    | (rep1, tr, tags, none) => (rep1, tr, tags, true)
  else
    (rep.add_error account_name "Conexión" "sesión"
      "No se pudo establecer conexión" none, [], [], false)

/-- The provider behaviour visible to one account, one field per handler. -/
structure AccountEnv where
  sessionOk : Bool
  stackEnv : String → StackRegionEnv
  lambdaEnv : String → RegionEnv
  iamEnv : IamEnv
  ssmEnv : String → SsmRegionEnv
  logsEnv : String → RegionEnv
  s3Env : S3Env
  stackSetEnv : StackSetEnv

/-- The fixed handler sequence of `scan_account`, lines 705-714 of the
source: stacks, lambda functions, IAM roles, SSM parameters, log groups, S3
buckets, and, only for the master account key, StackSets. -/
def handlerSpecs (account_key account_name : String) (env : AccountEnv)
    (delete_mode : Bool) :
    List (HandlerTag × (CleanupReport → CleanupReport × List Event × Nat)) :=
  [(HandlerTag.stackH, list_cloudformation_stacks env.stackEnv account_name delete_mode),
   (HandlerTag.functionH, list_lambda_functions env.lambdaEnv account_name delete_mode),
   (HandlerTag.roleH, list_iam_roles env.iamEnv account_name delete_mode),
   (HandlerTag.parameterH, list_ssm_parameters env.ssmEnv account_name delete_mode),
   (HandlerTag.logGroupH, list_cloudwatch_log_groups env.logsEnv account_name delete_mode),
   (HandlerTag.bucketH, list_s3_buckets env.s3Env account_name delete_mode)] ++
  (if account_key == "master" then
    [(HandlerTag.stackSetH,
      list_cloudformation_stacksets env.stackSetEnv account_name delete_mode)]
   else [])

def standardHandlers (account_key account_name : String) (env : AccountEnv)
    (delete_mode : Bool) : List (HandlerTag × Handler) :=
  (handlerSpecs account_key account_name env delete_mode).map
    (fun p => (p.1, toHandler p.2))

/-! ### Run controller (`main`) -/

/-- The fixed account catalog (`ACCOUNTS`), key and display name. -/
def ACCOUNTS : List (String × String) :=
  [("master", "Master Account"), ("audit", "Audit Account"),
   ("log", "Log Archive Account")]

/-- The account loop of `main`: run `scan_account` for each account in
catalog order, counting the accounts whose orchestration returned true.
Also returns the per-account return values. -/
def runAccounts (delete_mode : Bool) (envOf : String → AccountEnv) :
    List (String × String) → CleanupReport → CleanupReport × Nat × List Bool
  | [], rep => (rep, 0, [])
  | a :: rest, rep =>
    let env := envOf a.1
    let r := scan_account a.2 env.sessionOk
      (standardHandlers a.1 a.2 env delete_mode) rep
    let rs := runAccounts delete_mode envOf rest r.1
    (rs.1, (if r.2.2.2 then 1 else 0) + rs.2.1, r.2.2.2 :: rs.2.2)

/-- `main`: the whole run over the fixed catalog from the fresh report. -/
def mainRun (delete_mode : Bool) (envOf : String → AccountEnv) :
    CleanupReport × Nat × List Bool :=
  runAccounts delete_mode envOf ACCOUNTS emptyReport

/-- The run is reported as fully successful when both status lines the
process prints at the end are the success variants: the report summary line
(no error recorded) and the final account tally line
(`success_count == total_accounts`). -/
def run_fully_successful (delete_mode : Bool) (envOf : String → AccountEnv) : Bool :=
  summary_reports_ok (mainRun delete_mode envOf).1 &&
  final_block_reports_ok (mainRun delete_mode envOf).2.1 ACCOUNTS.length

/-! ### Helper lemmas about the report operations and the teardown loops -/

theorem reportKey_region_ne (a r1 r2 : String) (h : r1 ≠ r2) :
    reportKey a (some r1) ≠ reportKey a (some r2) := by
  intro heq
  apply h
  simp only [reportKey] at heq
  have hd := congrArg String.data heq
  simp only [String.data_append] at hd
  have h2 := List.append_cancel_right hd
  have h3 := List.append_cancel_left h2
  exact String.ext h3

theorem stack_delete_one_preserves (e : StackRegionEnv) (a n r : String)
    (rep : CleanupReport) :
    (stack_delete_one e a n r rep).1.resources_found = rep.resources_found ∧
    (stack_delete_one e a n r rep).1.resources_deleted = rep.resources_deleted := by
  unfold stack_delete_one
  repeat' split
  all_goals exact ⟨rfl, rfl⟩

theorem stack_delete_one_le (e : StackRegionEnv) (a n r : String)
    (rep : CleanupReport) : (stack_delete_one e a n r rep).2.2 ≤ 1 := by
  unfold stack_delete_one
  repeat' split
  all_goals first | exact Nat.le_refl 1 | exact Nat.zero_le 1

theorem stack_delete_loop_preserves (env : String → StackRegionEnv) (a : String)
    (l : List (String × String)) (rep : CleanupReport) :
    (stack_delete_loop env a l rep).1.resources_found = rep.resources_found ∧
    (stack_delete_loop env a l rep).1.resources_deleted = rep.resources_deleted := by
  induction l generalizing rep with
  | nil => exact ⟨rfl, rfl⟩
  | cons p rest ih =>
    obtain ⟨n, r⟩ := p
    simp only [stack_delete_loop]
    constructor
    · rw [(ih _).1, (stack_delete_one_preserves _ _ _ _ _).1]
    · rw [(ih _).2, (stack_delete_one_preserves _ _ _ _ _).2]

theorem stack_delete_loop_le (env : String → StackRegionEnv) (a : String)
    (l : List (String × String)) (rep : CleanupReport) :
    (stack_delete_loop env a l rep).2.2 ≤ l.length := by
  induction l generalizing rep with
  | nil => exact Nat.le_refl 0
  | cons p rest ih =>
    obtain ⟨n, r⟩ := p
    simp only [stack_delete_loop, List.length_cons]
    have h1 := stack_delete_one_le (env r) a n r rep
    have h2 := ih (stack_delete_one (env r) a n r rep).1
    omega

theorem s3_delete_bucket_one_preserves (spec : BucketSpec) (a : String)
    (rep : CleanupReport) :
    (s3_delete_bucket_one spec a rep).1.resources_found = rep.resources_found ∧
    (s3_delete_bucket_one spec a rep).1.resources_deleted = rep.resources_deleted := by
  simp only [s3_delete_bucket_one]
  repeat' split
  all_goals exact ⟨rfl, rfl⟩

theorem s3_delete_bucket_one_le (spec : BucketSpec) (a : String)
    (rep : CleanupReport) : (s3_delete_bucket_one spec a rep).2.2 ≤ 1 := by
  simp only [s3_delete_bucket_one]
  repeat' split
  all_goals first | exact Nat.le_refl 1 | exact Nat.zero_le 1

theorem s3_delete_loop_preserves (a : String) (l : List BucketSpec)
    (rep : CleanupReport) :
    (s3_delete_loop a l rep).1.resources_found = rep.resources_found ∧
    (s3_delete_loop a l rep).1.resources_deleted = rep.resources_deleted := by
  induction l generalizing rep with
  | nil => exact ⟨rfl, rfl⟩
  | cons spec rest ih =>
    simp only [s3_delete_loop]
    constructor
    · rw [(ih _).1, (s3_delete_bucket_one_preserves _ _ _).1]
    · rw [(ih _).2, (s3_delete_bucket_one_preserves _ _ _).2]

theorem s3_delete_loop_le (a : String) (l : List BucketSpec)
    (rep : CleanupReport) : (s3_delete_loop a l rep).2.2 ≤ l.length := by
  induction l generalizing rep with
  | nil => exact Nat.le_refl 0
  | cons spec rest ih =>
    simp only [s3_delete_loop, List.length_cons]
    have h1 := s3_delete_bucket_one_le spec a rep
    have h2 := ih (s3_delete_bucket_one spec a rep).1
    omega

theorem s3_empty_bucket_count (bucket b : String) (objs : List ObjDel) :
    (s3_empty_bucket bucket objs).1.count (Event.deleteBucket b) = 0 := by
  induction objs with
  | nil => rfl
  | cons o rest ih =>
    cases h : o.res with
    | some e => simp [s3_empty_bucket, h, List.count_cons]
    | none => simp [s3_empty_bucket, h, ih, List.count_cons]

/-- Claim C2 as stated is false on the code: for a bucket `sra-b` whose
single emptying `delete_object` call raises `AccessDenied`, the raised error
jumps straight to the per-bucket `except` handler, so the `delete_bucket`
call is never attempted (zero `deleteBucket` events in the trace), not
attempted exactly once. -/
theorem C2_counterexample :
    (s3_delete_bucket_one ⟨"sra-b", none, [⟨"key1", "v1", some "AccessDenied"⟩], none⟩
        "Master Account" emptyReport).2.1.count (Event.deleteBucket "sra-b") = 0 ∧
    ¬ (s3_delete_bucket_one ⟨"sra-b", none, [⟨"key1", "v1", some "AccessDenied"⟩], none⟩
        "Master Account" emptyReport).2.1.count (Event.deleteBucket "sra-b") = 1 := by
  decide

/-- Claim C2, amended: in apply mode, when emptying the bucket raises an
error the bucket-delete call is NOT attempted (the emptying failure is
surfaced verbatim as the bucket's single error entry); the bucket-delete
call is attempted exactly once only when emptying completes without
raising, and in that case its failure is surfaced verbatim. -/
theorem C2_amended (spec : BucketSpec) (account_name : String) (rep : CleanupReport)
    (hlist : spec.listObjectsErr = none) :
    ((s3_empty_bucket spec.name spec.objs).2 = none →
      (s3_delete_bucket_one spec account_name rep).2.1.count
          (Event.deleteBucket spec.name) = 1 ∧
      ∀ e, spec.deleteErr = some e →
        (s3_delete_bucket_one spec account_name rep).1.errors =
          rep.errors ++ [(reportKey account_name none,
            ⟨"S3 Bucket", spec.name, e, none⟩)]) ∧
    (∀ e, (s3_empty_bucket spec.name spec.objs).2 = some e →
      (s3_delete_bucket_one spec account_name rep).2.1.count
          (Event.deleteBucket spec.name) = 0 ∧
      (s3_delete_bucket_one spec account_name rep).1.errors =
        rep.errors ++ [(reportKey account_name none,
          ⟨"S3 Bucket", spec.name, e, none⟩)]) := by
  simp only [s3_delete_bucket_one, hlist]
  constructor
  · intro hemp
    cases hdel : spec.deleteErr with
    | some e =>
      simp [hemp, hdel, List.count_append, List.count_cons,
        s3_empty_bucket_count, CleanupReport.add_error]
    | none =>
      simp [hemp, hdel, List.count_append, List.count_cons,
        s3_empty_bucket_count, CleanupReport.add_success]
  · intro e hemp
    simp [hemp, s3_empty_bucket_count, CleanupReport.add_error]

/-- Witness for the amended C2 at a concrete input: a bucket with three
object versions and one delete marker and a failing `delete_bucket` call
issues the bucket-delete exactly once and surfaces its error verbatim. -/
theorem C2_amended_witness :
    (s3_delete_bucket_one ⟨"sra-log", none,
        [⟨"a", "v1", none⟩, ⟨"a", "v2", none⟩, ⟨"b", "v1", none⟩, ⟨"a", "dm1", none⟩],
        some "BucketNotEmpty"⟩ "Log Archive Account" emptyReport).2.1.count
      (Event.deleteBucket "sra-log") = 1 ∧
    (s3_delete_bucket_one ⟨"sra-log", none,
        [⟨"a", "v1", none⟩, ⟨"a", "v2", none⟩, ⟨"b", "v1", none⟩, ⟨"a", "dm1", none⟩],
        some "BucketNotEmpty"⟩ "Log Archive Account" emptyReport).1.errors =
      [("Log Archive Account", ⟨"S3 Bucket", "sra-log", "BucketNotEmpty", none⟩)] := by
  have h := (C2_amended ⟨"sra-log", none,
      [⟨"a", "v1", none⟩, ⟨"a", "v2", none⟩, ⟨"b", "v1", none⟩, ⟨"a", "dm1", none⟩],
      some "BucketNotEmpty"⟩ "Log Archive Account" emptyReport rfl).1 rfl
  exact ⟨h.1, h.2 "BucketNotEmpty" rfl⟩

theorem detach_policies_count (role b : String)
    (l : List (String × String × Option String)) :
    (detach_policies role l).1.count (Event.deleteRole b) = 0 := by
  induction l with
  | nil => rfl
  | cons p rest ih =>
    obtain ⟨pn, arn, res⟩ := p
    cases res with
    | some e => simp [detach_policies, List.count_cons]
    | none => simp [detach_policies, ih, List.count_cons]

theorem delete_inline_policies_count (role b : String)
    (l : List (String × Option String)) :
    (delete_inline_policies role l).1.count (Event.deleteRole b) = 0 := by
  induction l with
  | nil => rfl
  | cons p rest ih =>
    obtain ⟨pn, res⟩ := p
    cases res with
    | some e => simp [delete_inline_policies, List.count_cons]
    | none => simp [delete_inline_policies, ih, List.count_cons]

/-- Claim C3 as stated is false on the code: for a role `sra-r` with one
attached policy whose detach call raises `DeleteConflict`, the raised error
jumps straight to the per-role `except` handler, so the `delete_role` call
is never attempted (zero `deleteRole` events), and only one error entry is
recorded, not a distinct role-deletion failure. -/
theorem C3_counterexample :
    (iam_delete_role_one ⟨"sra-r", none, [("p1", "arn:p1", some "DeleteConflict")],
        none, [], none⟩ "Audit Account" emptyReport).2.1.count
      (Event.deleteRole "sra-r") = 0 ∧
    (iam_delete_role_one ⟨"sra-r", none, [("p1", "arn:p1", some "DeleteConflict")],
        none, [], none⟩ "Audit Account" emptyReport).1.errors.length = 1 := by
  decide

/-- Claim C3, amended: in apply mode, when detaching a managed policy or
deleting an inline policy raises, the role deletion is NOT attempted and the
raised failure is recorded as the role's single error entry; the
`delete_role` call is attempted exactly once only when every policy step
succeeded, and its failure is then the role's error entry. -/
theorem C3_amended (spec : RoleSpec) (account_name : String) (rep : CleanupReport)
    (hla : spec.listAttachedErr = none) (hli : spec.listInlineErr = none) :
    (∀ e, (detach_policies spec.name spec.attached).2 = some e →
      (iam_delete_role_one spec account_name rep).2.1.count
          (Event.deleteRole spec.name) = 0 ∧
      (iam_delete_role_one spec account_name rep).1.errors =
        rep.errors ++ [(reportKey account_name none,
          ⟨"IAM Role", spec.name, e, none⟩)]) ∧
    ((detach_policies spec.name spec.attached).2 = none →
      ∀ e, (delete_inline_policies spec.name spec.inlinePolicies).2 = some e →
      (iam_delete_role_one spec account_name rep).2.1.count
          (Event.deleteRole spec.name) = 0 ∧
      (iam_delete_role_one spec account_name rep).1.errors =
        rep.errors ++ [(reportKey account_name none,
          ⟨"IAM Role", spec.name, e, none⟩)]) ∧
    ((detach_policies spec.name spec.attached).2 = none →
      (delete_inline_policies spec.name spec.inlinePolicies).2 = none →
      (iam_delete_role_one spec account_name rep).2.1.count
          (Event.deleteRole spec.name) = 1 ∧
      (∀ e, spec.deleteErr = some e →
        (iam_delete_role_one spec account_name rep).1.errors =
          rep.errors ++ [(reportKey account_name none,
            ⟨"IAM Role", spec.name, e, none⟩)]) ∧
      (spec.deleteErr = none →
        (iam_delete_role_one spec account_name rep).1.successes =
          rep.successes ++ [(reportKey account_name none,
            ⟨"IAM Role", spec.name, none⟩)])) := by
  simp only [iam_delete_role_one, hla, hli]
  refine ⟨?_, ?_, ?_⟩
  · intro e hdet
    simp [hdet, detach_policies_count, CleanupReport.add_error]
  · intro hdet e hinl
    simp [hdet, hinl, detach_policies_count, delete_inline_policies_count,
      List.count_append, CleanupReport.add_error]
  · intro hdet hinl
    cases hdel : spec.deleteErr with
    | some e =>
      simp [hdet, hinl, hdel, detach_policies_count, delete_inline_policies_count,
        List.count_append, List.count_cons, CleanupReport.add_error]
    | none =>
      simp [hdet, hinl, hdel, detach_policies_count, delete_inline_policies_count,
        List.count_append, List.count_cons, CleanupReport.add_success]

/-- Witness for the amended C3 at a concrete input: a role whose policy
steps all succeed gets exactly one `delete_role` call, and its failure is
the role's error entry. -/
theorem C3_amended_witness :
    (iam_delete_role_one ⟨"sra-r2", none, [("p1", "arn:p1", none)], none,
        [("inl1", none)], some "AccessDenied"⟩ "Audit Account" emptyReport).2.1.count
      (Event.deleteRole "sra-r2") = 1 ∧
    (iam_delete_role_one ⟨"sra-r2", none, [("p1", "arn:p1", none)], none,
        [("inl1", none)], some "AccessDenied"⟩ "Audit Account" emptyReport).1.errors =
      [("Audit Account", ⟨"IAM Role", "sra-r2", "AccessDenied", none⟩)] := by
  have h := ((C3_amended ⟨"sra-r2", none, [("p1", "arn:p1", none)], none,
      [("inl1", none)], some "AccessDenied"⟩ "Audit Account" emptyReport rfl rfl).2.2
      rfl rfl)
  exact ⟨h.1, h.2.1 "AccessDenied" rfl⟩

/-- Claim C4 as stated is false on the code: with a working session, a
handler that lets an uncaught error escape makes `scan_account` return
false (the claim says it returns true whenever the session was acquired),
and the subsequent handler is never invoked (the claim says an error in one
handler does not prevent the following handlers from running). -/
theorem C4_counterexample :
    (scan_account "Master Account" true
      [(HandlerTag.stackH, fun rep => (rep, [], some "boom")),
       (HandlerTag.functionH,
        fun rep => (rep, [Event.deleteFunction "sra-f" "us-east-1"], none))]
      emptyReport).2.2.2 = false ∧
    (scan_account "Master Account" true
      [(HandlerTag.stackH, fun rep => (rep, [], some "boom")),
       (HandlerTag.functionH,
        fun rep => (rep, [Event.deleteFunction "sra-f" "us-east-1"], none))]
      emptyReport).2.2.1 = [HandlerTag.stackH] := by
  exact ⟨rfl, rfl⟩

/-- Claim C4, amended: the handler sequence runs inside one `try` block, so
an uncaught error inside one handler stops the sequence (the handlers after
the raising one are not invoked), is demoted to a single "Proceso General"
error entry, and makes `scan_account` return false; `scan_account` returns
true exactly when session acquisition succeeded and no handler raised an
uncaught error. -/
theorem C4_amended (account_name : String) (sessionOk : Bool)
    (hs : List (HandlerTag × Handler)) (rep : CleanupReport) :
    ((scan_account account_name sessionOk hs rep).2.2.2 = true ↔
      sessionOk = true ∧ (runHandlers hs rep).2.2.2 = none) ∧
    (∀ e, sessionOk = true → (runHandlers hs rep).2.2.2 = some e →
      (scan_account account_name sessionOk hs rep).1.errors =
        (runHandlers hs rep).1.errors ++
          [(account_name, ⟨"Proceso General", "scan_account", e, none⟩)]) ∧
    (∀ t (h : Handler) rest rep1 tr e, h rep = (rep1, tr, some e) →
      (runHandlers ((t, h) :: rest) rep).2.2.1 = [t]) := by
  refine ⟨?_, ?_, ?_⟩
  · cases hs0 : sessionOk with
    | false => simp [scan_account]
    | true =>
      rcases hr : runHandlers hs rep with ⟨rep1, tr, tags, exc⟩
      cases exc with
      | some e => simp [scan_account, hr]
      | none => simp [scan_account, hr]
  · intro e hs0 hexc
    subst hs0
    rcases hr : runHandlers hs rep with ⟨rep1, tr, tags, exc⟩
    rw [hr] at hexc
    simp only at hexc
    subst hexc
    simp [scan_account, hr, CleanupReport.add_error, reportKey]
  · intro t h rest rep1 tr e hh
    simp [runHandlers, hh]

/-- Witness for the amended C4 at a concrete input: with a working session
and an empty handler list, `scan_account` returns true. -/
theorem C4_amended_witness :
    (scan_account "Master Account" true [] emptyReport).2.2.2 = true := by
  exact (C4_amended "Master Account" true [] emptyReport).1.mpr ⟨rfl, rfl⟩

theorem runHandlers_toHandler
    (fs : List (HandlerTag × (CleanupReport → CleanupReport × List Event × Nat)))
    (rep : CleanupReport) :
    (runHandlers (fs.map (fun p => (p.1, toHandler p.2))) rep).2.2.1 =
      fs.map (fun p => p.1) ∧
    (runHandlers (fs.map (fun p => (p.1, toHandler p.2))) rep).2.2.2 = none := by
  induction fs generalizing rep with
  | nil => exact ⟨rfl, rfl⟩
  | cons p rest ih =>
    rcases hp : p.2 rep with ⟨rep1, r⟩
    constructor
    · simp [runHandlers, toHandler, hp, (ih rep1).1]
    · simp [runHandlers, toHandler, hp, (ih rep1).2]

/-- Claim C6: with a working session, `scan_account` invokes the handlers in
the fixed order Stack, Function, Role, Parameter, LogGroup, Bucket, then
StackSet exactly when the account key is master — whatever errors the
individual teardowns produce (every provider failure modelled by the
environment is caught inside its handler).  In particular the Role handler
never begins before the Stack and Function handlers have been attempted. -/
theorem C6_handler_order (account_key account_name : String) (env : AccountEnv)
    (delete_mode : Bool) (rep : CleanupReport) :
    (scan_account account_name true
        (standardHandlers account_key account_name env delete_mode) rep).2.2.1 =
      [HandlerTag.stackH, HandlerTag.functionH, HandlerTag.roleH,
       HandlerTag.parameterH, HandlerTag.logGroupH, HandlerTag.bucketH] ++
      (if account_key == "master" then [HandlerTag.stackSetH] else []) := by
  have h := runHandlers_toHandler
    (handlerSpecs account_key account_name env delete_mode) rep
  simp only [standardHandlers]
  rcases hr : runHandlers
      ((handlerSpecs account_key account_name env delete_mode).map
        (fun p => (p.1, toHandler p.2))) rep with ⟨rep1, tr, tags, exc⟩
  have htags := h.1
  have hexc := h.2
  rw [hr] at htags hexc
  simp only at htags hexc
  subst hexc
  subst htags
  simp only [scan_account, if_true, hr]
  simp only [handlerSpecs]
  cases hm : account_key == "master" with
  | false => simp [hm]
  | true => simp [hm]

theorem runAccounts_count (dm : Bool) (envOf : String → AccountEnv)
    (accounts : List (String × String)) (rep : CleanupReport) :
    (runAccounts dm envOf accounts rep).2.1 =
      (runAccounts dm envOf accounts rep).2.2.count true ∧
    (runAccounts dm envOf accounts rep).2.2.length = accounts.length := by
  induction accounts generalizing rep with
  | nil => exact ⟨rfl, rfl⟩
  | cons a rest ih =>
    simp only [runAccounts, List.length_cons, List.count_cons]
    constructor
    · cases hok : (scan_account a.2 (envOf a.1).sessionOk
          (standardHandlers a.1 a.2 (envOf a.1) dm) rep).2.2.2 with
      | false => simp [hok, (ih _).1]
      | true => simp [hok, (ih _).1, Nat.add_comm]
    · rw [(ih _).2]

/-- Claim C1: the final run status printed by `main` (the summary status
line together with the per-account tally line) is fully successful exactly
when every `scan_account` call returned true and the aggregator recorded
zero errors; whenever at least one error entry was recorded in either mode,
the run signals failure. -/
theorem C1_final_status (dm : Bool) (envOf : String → AccountEnv) :
    (run_fully_successful dm envOf = true ↔
      ((∀ ok ∈ (mainRun dm envOf).2.2, ok = true) ∧
        total_errors (mainRun dm envOf).1 = 0)) ∧
    (1 ≤ total_errors (mainRun dm envOf).1 →
      run_fully_successful dm envOf = false) := by
  have hc := runAccounts_count dm envOf ACCOUNTS emptyReport
  constructor
  · rw [run_fully_successful, Bool.and_eq_true, summary_reports_ok,
      final_block_reports_ok, beq_iff_eq, beq_iff_eq]
    constructor
    · rintro ⟨herr, hcnt⟩
      rw [mainRun] at hcnt ⊢
      rw [hc.1, ← hc.2] at hcnt
      exact ⟨fun ok hok => (List.count_eq_length.mp hcnt ok hok).symm, herr⟩
    · rintro ⟨hall, herr⟩
      refine ⟨herr, ?_⟩
      rw [mainRun] at hall ⊢
      rw [hc.1, ← hc.2]
      exact List.count_eq_length.mpr (fun b hb => (hall b hb).symm)
  · intro h
    rw [run_fully_successful, summary_reports_ok]
    have hz : (total_errors (mainRun dm envOf).1 == 0) = false := by
      rw [beq_eq_false_iff_ne]
      omega
    rw [hz, Bool.false_and]

/-- Witness for C1 at a concrete input: with working sessions and a provider
holding no SRA resources at all, the run is reported fully successful. -/
theorem C1_final_status_witness :
    run_fully_successful true
      (fun _ => ⟨true, fun _ => ⟨none, 0, [], [], [], []⟩, fun _ => ⟨none, [], []⟩,
        ⟨none, []⟩, fun _ => ⟨none, [], []⟩, fun _ => ⟨none, [], []⟩,
        ⟨none, []⟩, ⟨none, []⟩⟩) = true := by
  refine (C1_final_status true _).1.mpr ⟨?_, by decide⟩
  intro ok hok
  have h : (mainRun true
      (fun _ => ⟨true, fun _ => ⟨none, 0, [], [], [], []⟩, fun _ => ⟨none, [], []⟩,
        ⟨none, []⟩, fun _ => ⟨none, [], []⟩, fun _ => ⟨none, [], []⟩,
        ⟨none, []⟩, ⟨none, []⟩⟩)).2.2 = [true, true, true] := rfl
  rw [h] at hok
  simp at hok
  exact hok

/-- The names one region's listing contributes to discovery. -/
def regionNames (getRegion : String → Option String × List (List String))
    (r : String) : List String :=
  match getRegion r with
  | (some _, _) => []
  | (none, pages) => pages.flatten.filter matchesSra

/-- The found-count entries the discovery loop pushes (newest last). -/
def foundEntries (g : String → Option String × List (List String)) (a ty : String) :
    List String → List (String × String × Nat)
  | [] => []
  | r :: rest =>
    foundEntries g a ty rest ++
      (if (regionNames g r).isEmpty then []
       else [(reportKey a (some r), ty, (regionNames g r).length)])

theorem discover_regions_go_spec (g : String → Option String × List (List String))
    (a ty : String) (regions : List String) (rep : CleanupReport) :
    (discover_regions_go g a ty regions rep).1.resources_deleted =
      rep.resources_deleted ∧
    (discover_regions_go g a ty regions rep).1.successes = rep.successes ∧
    (discover_regions_go g a ty regions rep).1.resources_found =
      foundEntries g a ty regions ++ rep.resources_found ∧
    (discover_regions_go g a ty regions rep).2 =
      (regions.map (fun r => (regionNames g r).map (fun n => (n, r)))).flatten := by
  induction regions generalizing rep with
  | nil => simp [discover_regions_go, foundEntries]
  | cons r rest ih =>
    simp only [discover_regions_go, foundEntries, List.map_cons, List.flatten_cons]
    rcases hg : g r with ⟨le, pages⟩
    cases le with
    | some e =>
      simp [regionNames, hg, ih, CleanupReport.add_error]
    | none =>
      cases hn : (pages.flatten.filter matchesSra).isEmpty with
      | true =>
        have hnil : pages.flatten.filter matchesSra = [] := by
          simpa [List.isEmpty_iff] using hn
        simp [regionNames, hg, hn, hnil, ih]
      | false =>
        simp only [regionNames, hg, hn, Bool.false_eq_true, if_false]
        refine ⟨?_, ?_, ?_, ?_⟩
        · rw [(ih _).1]
          rfl
        · rw [(ih _).2.1]
          rfl
        · rw [(ih _).2.2.1]
          simp [CleanupReport.add_resource_found, List.append_assoc]
        · rw [(ih _).2.2.2]
          rfl

theorem discover_found_count_two
    (g : String → Option String × List (List String)) (a ty : String) :
    getCount (discover_regions g a ty emptyReport).1.resources_found
        (reportKey a (some "us-east-1")) ty = (regionNames g "us-east-1").length ∧
    getCount (discover_regions g a ty emptyReport).1.resources_found
        (reportKey a (some "us-west-2")) ty = (regionNames g "us-west-2").length := by
  have hne21 : (reportKey a (some "us-west-2") == reportKey a (some "us-east-1")) = false :=
    beq_eq_false_iff_ne.mpr (reportKey_region_ne a "us-west-2" "us-east-1" (by decide))
  have hne12 : (reportKey a (some "us-east-1") == reportKey a (some "us-west-2")) = false :=
    beq_eq_false_iff_ne.mpr (reportKey_region_ne a "us-east-1" "us-west-2" (by decide))
  have hfound := (discover_regions_go_spec g a ty SRA_REGIONS emptyReport).2.2.1
  rw [show discover_regions g a ty emptyReport =
      discover_regions_go g a ty SRA_REGIONS emptyReport from rfl]
  rw [hfound]
  simp only [SRA_REGIONS, foundEntries, emptyReport, List.append_nil, List.nil_append]
  cases hn1 : (regionNames g "us-east-1").isEmpty with
  | true =>
    have h1 : regionNames g "us-east-1" = [] := by simpa [List.isEmpty_iff] using hn1
    cases hn2 : (regionNames g "us-west-2").isEmpty with
    | true =>
      have h2 : regionNames g "us-west-2" = [] := by simpa [List.isEmpty_iff] using hn2
      simp [hn1, hn2, h1, h2, getCount]
    | false =>
      simp [hn1, hn2, h1, getCount, List.find?_cons, hne21]
  | false =>
    cases hn2 : (regionNames g "us-west-2").isEmpty with
    | true =>
      have h2 : regionNames g "us-west-2" = [] := by simpa [List.isEmpty_iff] using hn2
      simp [hn1, hn2, h2, getCount, List.find?_cons, hne12]
    | false =>
      simp [hn1, hn2, getCount, List.find?_cons, hne12, hne21]

/-- Claim C5 as stated is false on the code: one stack `sra-a` found and
deleted in us-east-1 records its found count under the key
`Master Account (us-east-1)` but its deleted count under the region-less
key `Master Account` (the `add_resource_deleted` calls omit the region), so
under the key `Master Account` the deleted count 1 exceeds the found count
0. -/
theorem C5_counterexample :
    ¬ (getCount (list_cloudformation_stacks
          (fun r => if r == "us-east-1"
            then ⟨none, 0, [("sra-a", "CREATE_COMPLETE")], [], [], []⟩
            else ⟨none, 0, [], [], [], []⟩)
          "Master Account" true emptyReport).1.resources_deleted
        "Master Account" "CloudFormation Stacks" ≤
      getCount (list_cloudformation_stacks
          (fun r => if r == "us-east-1"
            then ⟨none, 0, [("sra-a", "CREATE_COMPLETE")], [], [], []⟩
            else ⟨none, 0, [], [], [], []⟩)
          "Master Account" true emptyReport).1.resources_found
        "Master Account" "CloudFormation Stacks") := by
  decide

theorem ssm_delete_batches_mem (benv : List (List String × String)) (a r : String)
    (batches : List (List String)) (rep : CleanupReport) (ev : Event)
    (hev : ev ∈ (ssm_delete_batches benv a r batches rep).2.1) :
    ∃ b ∈ batches, ev = Event.deleteParameters r b := by
  induction batches generalizing rep with
  | nil => simp [ssm_delete_batches] at hev
  | cons batch rest ih =>
    simp only [ssm_delete_batches] at hev
    cases hlk : benv.lookup batch with
    | some e =>
      rw [hlk] at hev
      simp only [List.mem_cons] at hev
      cases hev with
      | inl h => exact ⟨batch, by simp, h⟩
      | inr h =>
        obtain ⟨b, hb, hbe⟩ := ih _ h
        exact ⟨b, by simp [hb], hbe⟩
    | none =>
      rw [hlk] at hev
      simp only [List.mem_cons] at hev
      cases hev with
      | inl h => exact ⟨batch, by simp, h⟩
      | inr h =>
        obtain ⟨b, hb, hbe⟩ := ih _ h
        exact ⟨b, by simp [hb], hbe⟩

theorem ssm_delete_regions_mem (env : String → SsmRegionEnv) (a : String)
    (found : List (String × String)) (regions : List String)
    (rep : CleanupReport) (ev : Event)
    (hev : ev ∈ (ssm_delete_regions env a found regions rep).2.1) :
    ∃ r' b, b.length ≤ 10 ∧ ev = Event.deleteParameters r' b := by
  induction regions generalizing rep with
  | nil => simp [ssm_delete_regions] at hev
  | cons r rest ih =>
    simp only [ssm_delete_regions, List.mem_append] at hev
    cases hev with
    | inl h =>
      obtain ⟨b, hb, hbe⟩ := ssm_delete_batches_mem _ _ _ _ _ _ h
      exact ⟨r, b, chunksOf_mem_length 10 (by omega) _ b hb, hbe⟩
    | inr h => exact ih _ h

theorem stackset_retract_batches_mem (spec : StackSetSpec) (a : String)
    (batches : List (List (String × String))) (rep : CleanupReport) (ev : Event)
    (hev : ev ∈ (stackset_retract_batches spec a batches rep).2) :
    (∃ b ∈ batches, ev = Event.deleteStackInstances spec.name
      (b.map (fun p => p.1)) (b.map (fun p => p.2))) ∨ ev = Event.sleepSecs 10 := by
  induction batches generalizing rep with
  | nil => simp [stackset_retract_batches] at hev
  | cons batch rest ih =>
    simp only [stackset_retract_batches] at hev
    cases hlk : spec.instBatchErr.lookup batch with
    | some e =>
      rw [hlk] at hev
      simp only [List.mem_cons] at hev
      cases hev with
      | inl h => exact Or.inl ⟨batch, by simp, h⟩
      | inr h =>
        cases ih _ h with
        | inl h2 =>
          obtain ⟨b, hb, hbe⟩ := h2
          exact Or.inl ⟨b, by simp [hb], hbe⟩
        | inr h2 => exact Or.inr h2
    | none =>
      rw [hlk] at hev
      simp only [List.mem_cons] at hev
      rcases hev with h | h | h
      · exact Or.inl ⟨batch, by simp, h⟩
      · exact Or.inr h
      · cases ih _ h with
        | inl h2 =>
          obtain ⟨b, hb, hbe⟩ := h2
          exact Or.inl ⟨b, by simp [hb], hbe⟩
        | inr h2 => exact Or.inr h2

theorem stackset_delete_one_mem (spec : StackSetSpec) (a : String)
    (rep : CleanupReport) (ev : Event)
    (hev : ev ∈ (stackset_delete_one spec a rep).2.1) :
    (∃ b ∈ chunksOf 10 spec.instances, ev = Event.deleteStackInstances spec.name
      (b.map (fun p => p.1)) (b.map (fun p => p.2))) ∨
    ev = Event.sleepSecs 10 ∨ ev = Event.deleteStackSet spec.name := by
  simp only [stackset_delete_one] at hev
  cases hli : spec.listInstancesErr with
  | some e =>
    rw [hli] at hev
    simp at hev
  | none =>
    rw [hli] at hev
    have hsplit : ∀ ev', ev' ∈ (stackset_retract_batches spec a
        (chunksOf 10 spec.instances) rep).2 ++ [Event.deleteStackSet spec.name] →
        (∃ b ∈ chunksOf 10 spec.instances, ev' = Event.deleteStackInstances spec.name
          (b.map (fun p => p.1)) (b.map (fun p => p.2))) ∨
        ev' = Event.sleepSecs 10 ∨ ev' = Event.deleteStackSet spec.name := by
      intro ev' hev'
      rw [List.mem_append] at hev'
      cases hev' with
      | inl h =>
        cases stackset_retract_batches_mem spec a _ rep ev' h with
        | inl h2 => exact Or.inl h2
        | inr h2 => exact Or.inr (Or.inl h2)
      | inr h => exact Or.inr (Or.inr (by simpa using h))
    cases hdl : spec.deleteErr with
    | some e =>
      rw [hdl] at hev
      exact hsplit ev hev
    | none =>
      rw [hdl] at hev
      exact hsplit ev hev

theorem stackset_delete_loop_mem (a : String) (specs : List StackSetSpec)
    (rep : CleanupReport) (ev : Event)
    (hev : ev ∈ (stackset_delete_loop a specs rep).2.1) :
    ∃ spec ∈ specs,
      (∃ b ∈ chunksOf 10 spec.instances, ev = Event.deleteStackInstances spec.name
        (b.map (fun p => p.1)) (b.map (fun p => p.2))) ∨
      ev = Event.sleepSecs 10 ∨ ev = Event.deleteStackSet spec.name := by
  induction specs generalizing rep with
  | nil => simp [stackset_delete_loop] at hev
  | cons spec rest ih =>
    simp only [stackset_delete_loop, List.mem_append] at hev
    cases hev with
    | inl h => exact ⟨spec, by simp, stackset_delete_one_mem spec a rep ev h⟩
    | inr h =>
      obtain ⟨sp, hsp, hspe⟩ := ih _ h
      exact ⟨sp, by simp [hsp], hspe⟩

/-- Claim C7: every batched SSM `delete_parameters` call carries at most 10
names, and every StackSet `delete_stack_instances` call carries at most 10
accounts and 10 regions, for every provider behaviour — the teardown loops
chunk the discovered names and instances with stride 10. -/
theorem C7_batch_sizes :
    (∀ (env : String → SsmRegionEnv) (account_name : String) (dm : Bool)
      (rep : CleanupReport) (region : String) (names : List String),
      Event.deleteParameters region names ∈
        (list_ssm_parameters env account_name dm rep).2.1 →
      names.length ≤ 10) ∧
    (∀ (env : StackSetEnv) (account_name : String) (dm : Bool)
      (rep : CleanupReport) (s : String) (accounts regions : List String),
      Event.deleteStackInstances s accounts regions ∈
        (list_cloudformation_stacksets env account_name dm rep).2.1 →
      accounts.length ≤ 10 ∧ regions.length ≤ 10) := by
  constructor
  · intro env account_name dm rep region names hev
    simp only [list_ssm_parameters] at hev
    split at hev
    · simp at hev
    · split at hev
      · obtain ⟨r', b, hb, hbe⟩ := ssm_delete_regions_mem env account_name _ _ _ _ hev
        cases hbe
        exact hb
      · simp at hev
  · intro env account_name dm rep s accounts regions hev
    simp only [list_cloudformation_stacksets] at hev
    split at hev
    · simp at hev
    · split at hev
      · simp at hev
      · split at hev
        · obtain ⟨sp, _, hspe⟩ := stackset_delete_loop_mem account_name _ _ _ hev
          rcases hspe with ⟨b, hb, hbe⟩ | h | h
          · cases hbe
            have := chunksOf_mem_length 10 (by omega) _ b hb
            constructor <;> simpa [List.length_map]
          · cases h
          · cases h
        · simp at hev

/-- Witness for C7 at a concrete input: a two-parameter batch and a
one-instance retraction batch are both within the 10-element bound. -/
theorem C7_batch_sizes_witness :
    (["sra-a", "sra-b"] : List String).length ≤ 10 ∧
    ((["111111111111"] : List String).length ≤ 10 ∧
      (["us-east-1"] : List String).length ≤ 10) := by
  constructor
  · exact C7_batch_sizes.1
      (fun r => if r == "us-east-1"
        then ⟨none, [["sra-a", "sra-b"]], []⟩ else ⟨none, [], []⟩)
      "Master Account" true emptyReport "us-east-1" ["sra-a", "sra-b"] (by decide)
  · exact C7_batch_sizes.2
      ⟨none, [[⟨"sra-ss", "ACTIVE", none, [("111111111111", "us-east-1")], [], none⟩]]⟩
      "Master Account" true emptyReport "sra-ss" ["111111111111"] ["us-east-1"]
      (by decide)

/-- Claim C8: per-stack teardown in apply mode.  When `delete_stack` does
not raise: the delete is issued, then the single bounded waiter (fixed
delay 10, maximum 60 attempts) runs; if the waiter succeeds the stack is a
success with no status re-query; if the waiter raises or times out, the
status is re-queried exactly once as fallback, and when the query yields a
status the outcome is a success entry iff the status is DELETE_COMPLETE, a
manual-action error entry iff DELETE_FAILED, and an unexpected-state error
entry for any other status. -/
theorem C8_stack_teardown (e : StackRegionEnv) (account_name name region : String)
    (rep : CleanupReport) (hdel : e.delErr.lookup name = none) :
    ((e.waitErr.lookup name = none →
      (stack_delete_one e account_name name region rep).2.1 =
        [Event.deleteStack name region,
         Event.waitStackDelete name region 10 60] ∧
      (stack_delete_one e account_name name region rep).1.successes =
        rep.successes ++ [(reportKey account_name (some region),
          ⟨"CloudFormation Stack", name, some region⟩)]) ∧
    (∀ w, e.waitErr.lookup name = some w →
      (stack_delete_one e account_name name region rep).2.1 =
        [Event.deleteStack name region,
         Event.waitStackDelete name region 10 60,
         Event.describeStack name region] ∧
      (∀ st, (e.queryRes.lookup name).getD (QueryRes.raised "sin respuesta") =
          QueryRes.ok st →
        ((stack_delete_one e account_name name region rep).1.successes =
            rep.successes ++ [(reportKey account_name (some region),
              ⟨"CloudFormation Stack", name, some region⟩)] ↔
          st = "DELETE_COMPLETE") ∧
        (st = "DELETE_COMPLETE" →
          (stack_delete_one e account_name name region rep).2.2 = 1 ∧
          (stack_delete_one e account_name name region rep).1.errors = rep.errors) ∧
        (st = "DELETE_FAILED" →
          (stack_delete_one e account_name name region rep).2.2 = 0 ∧
          (stack_delete_one e account_name name region rep).1.errors =
            rep.errors ++ [(reportKey account_name (some region),
              ⟨"CloudFormation Stack", name,
               "Estado: DELETE_FAILED - Requiere eliminación manual", some region⟩)]) ∧
        (st ≠ "DELETE_COMPLETE" → st ≠ "DELETE_FAILED" →
          (stack_delete_one e account_name name region rep).2.2 = 0 ∧
          (stack_delete_one e account_name name region rep).1.errors =
            rep.errors ++ [(reportKey account_name (some region),
              ⟨"CloudFormation Stack", name, "Estado: " ++ st, some region⟩)])))) := by
  simp only [stack_delete_one, hdel]
  constructor
  · intro hw
    simp [hw, CleanupReport.add_success]
  · intro w hw
    simp only [hw]
    cases hq : (e.queryRes.lookup name).getD (QueryRes.raised "sin respuesta") with
    | raised msg =>
      refine ⟨rfl, ?_⟩
      intro st hst
      simp at hst
    | ok st0 =>
      refine ⟨?_, ?_⟩
      · repeat' split
        all_goals rfl
      · intro st hst
        injection hst with hst0
        subst hst0
        by_cases h1 : st0 = "DELETE_COMPLETE"
        · subst h1
          simp [CleanupReport.add_success]
        · by_cases h2 : st0 = "DELETE_FAILED"
          · subst h2
            simp [CleanupReport.add_error, CleanupReport.add_success]
          · have hb1 : (st0 == "DELETE_COMPLETE") = false := beq_eq_false_iff_ne.mpr h1
            have hb2 : (st0 == "DELETE_FAILED") = false := beq_eq_false_iff_ne.mpr h2
            simp [hb1, hb2, h1, h2, CleanupReport.add_error]

/-- Witness for C8 at a concrete input: a stack that reaches DELETE_FAILED
after the waiter times out is re-queried once and classified as an error
requiring manual deletion, not as a success. -/
theorem C8_stack_teardown_witness :
    (stack_delete_one ⟨none, 0, [("test-sra-cloudtrail", "CREATE_COMPLETE")], [],
        [("test-sra-cloudtrail", "timeout")],
        [("test-sra-cloudtrail", QueryRes.ok "DELETE_FAILED")]⟩
      "Master Account" "test-sra-cloudtrail" "us-east-1" emptyReport).2.1 =
      [Event.deleteStack "test-sra-cloudtrail" "us-east-1",
       Event.waitStackDelete "test-sra-cloudtrail" "us-east-1" 10 60,
       Event.describeStack "test-sra-cloudtrail" "us-east-1"] ∧
    (stack_delete_one ⟨none, 0, [("test-sra-cloudtrail", "CREATE_COMPLETE")], [],
        [("test-sra-cloudtrail", "timeout")],
        [("test-sra-cloudtrail", QueryRes.ok "DELETE_FAILED")]⟩
      "Master Account" "test-sra-cloudtrail" "us-east-1" emptyReport).1.errors =
      [("Master Account (us-east-1)",
        ⟨"CloudFormation Stack", "test-sra-cloudtrail",
         "Estado: DELETE_FAILED - Requiere eliminación manual", some "us-east-1"⟩)] ∧
    (stack_delete_one ⟨none, 0, [("test-sra-cloudtrail", "CREATE_COMPLETE")], [],
        [("test-sra-cloudtrail", "timeout")],
        [("test-sra-cloudtrail", QueryRes.ok "DELETE_FAILED")]⟩
      "Master Account" "test-sra-cloudtrail" "us-east-1" emptyReport).2.2 = 0 := by
  have h := C8_stack_teardown
    ⟨none, 0, [("test-sra-cloudtrail", "CREATE_COMPLETE")], [],
      [("test-sra-cloudtrail", "timeout")],
      [("test-sra-cloudtrail", QueryRes.ok "DELETE_FAILED")]⟩
    "Master Account" "test-sra-cloudtrail" "us-east-1" emptyReport rfl
  have h2 := h.2 "timeout" rfl
  have h3 := (h2.2 "DELETE_FAILED" rfl).2.2.1 rfl
  exact ⟨h2.1, by simpa using h3.2, h3.1⟩

/-- Claim C9 as stated is false on the code: stack discovery is not the
name filter alone.  A stack named `sra-test` in status DELETE_IN_PROGRESS
matches the name filter but is excluded by the fixed `StackStatusFilter`
allowlist; and with a provider page size of 1, a second matching stack
`sra-b` on the second page is never seen because the single `list_stacks`
response is not paginated further. -/
theorem C9_counterexample :
    matchesSra "sra-test" = true ∧
    (stack_list_response ⟨none, 0, [("sra-test", "DELETE_IN_PROGRESS")],
        [], [], []⟩).filter matchesSra = [] ∧
    matchesSra "sra-b" = true ∧
    (stack_list_response ⟨none, 1,
        [("sra-a", "CREATE_COMPLETE"), ("sra-b", "CREATE_COMPLETE")],
        [], [], []⟩).filter matchesSra = ["sra-a"] := by
  decide

/-- Claim C9, amended: for the paginator-based handlers discovery is
exactly the case-insensitive `sra` name filter over the concatenated pages,
for every page size, and it preserves the absence of duplicates; stack
discovery additionally applies the fixed six-status allowlist (and reads
only the first page of the response, so the name-and-status filter
describes it only when the visible stacks fit in one page); StackSet
discovery additionally excludes the DELETED status. -/
theorem C9_amended (entities : List String) (ps : Nat) (e : StackRegionEnv)
    (hfits : e.pageSize = 0 ∨
      (e.stackList.filter (fun p => stackStatusFilter.contains p.2)).length ≤
        e.pageSize) :
    ((chunksOf ps entities).flatten.filter matchesSra =
      entities.filter matchesSra) ∧
    (entities.Nodup → ((chunksOf ps entities).flatten.filter matchesSra).Nodup) ∧
    ((stack_list_response e).filter matchesSra =
      (e.stackList.filter
        (fun p => stackStatusFilter.contains p.2 && matchesSra p.1)).map
        (fun p => p.1)) := by
  refine ⟨?_, ?_, ?_⟩
  · rw [chunksOf_flatten]
  · intro h
    rw [chunksOf_flatten]
    exact h.filter _
  · rw [show stack_list_response e =
      ((chunksOf e.pageSize
        (e.stackList.filter (fun p => stackStatusFilter.contains p.2))).headD []).map
        (fun p => p.1) from rfl]
    rw [chunksOf_headD_of_fits _ _ hfits]
    rw [List.filter_map, List.filter_filter]
    exact congrArg (List.map _)
      (List.filter_congr (fun a _ => by simp [Function.comp, Bool.and_comm]))

/-- Witness for the amended C9 at a concrete input. -/
theorem C9_amended_witness :
    ((chunksOf 1 ["sra-x", "y"]).flatten.filter matchesSra = ["sra-x"]) ∧
    ((stack_list_response ⟨none, 0,
        [("sra-a", "CREATE_COMPLETE"), ("sra-b", "DELETE_FAILED"),
         ("x", "CREATE_COMPLETE")], [], [], []⟩).filter matchesSra =
      ["sra-a", "sra-b"]) := by
  have h := C9_amended ["sra-x", "y"] 1
    ⟨none, 0, [("sra-a", "CREATE_COMPLETE"), ("sra-b", "DELETE_FAILED"),
      ("x", "CREATE_COMPLETE")], [], [], []⟩ (Or.inl rfl)
  constructor
  · rw [h.1]
    decide
  · rw [h.2.2]
    decide

theorem stack_delete_one_succ (e : StackRegionEnv) (a n r : String)
    (rep : CleanupReport) :
    (stack_delete_one e a n r rep).1.successes.length =
      rep.successes.length + (stack_delete_one e a n r rep).2.2 := by
  unfold stack_delete_one
  repeat' split
  all_goals simp [CleanupReport.add_error, CleanupReport.add_success]

theorem stack_delete_loop_succ (env : String → StackRegionEnv) (a : String)
    (l : List (String × String)) (rep : CleanupReport) :
    (stack_delete_loop env a l rep).1.successes.length =
      rep.successes.length + (stack_delete_loop env a l rep).2.2 := by
  induction l generalizing rep with
  | nil => rfl
  | cons p rest ih =>
    obtain ⟨n, r⟩ := p
    simp only [stack_delete_loop]
    rw [ih, stack_delete_one_succ]
    omega

theorem lambda_delete_loop_spec (env : String → RegionEnv) (a : String)
    (l : List (String × String)) (rep : CleanupReport) :
    (lambda_delete_loop env a l rep).1.successes.length =
      rep.successes.length + (lambda_delete_loop env a l rep).2.2 ∧
    (lambda_delete_loop env a l rep).1.resources_deleted =
      rep.resources_deleted ∧
    (lambda_delete_loop env a l rep).1.resources_found = rep.resources_found := by
  induction l generalizing rep with
  | nil => exact ⟨rfl, rfl, rfl⟩
  | cons p rest ih =>
    obtain ⟨n, r⟩ := p
    simp only [lambda_delete_loop]
    cases hlk : ((env r).deleteErr).lookup n with
    | some e =>
      refine ⟨?_, (ih _).2.1, (ih _).2.2⟩
      rw [(ih _).1]
      simp [CleanupReport.add_error]
    | none =>
      refine ⟨?_, (ih _).2.1, (ih _).2.2⟩
      rw [(ih _).1]
      simp [CleanupReport.add_success]
      omega

theorem logs_delete_loop_spec (env : String → RegionEnv) (a : String)
    (l : List (String × String)) (rep : CleanupReport) :
    (logs_delete_loop env a l rep).1.successes.length =
      rep.successes.length + (logs_delete_loop env a l rep).2.2 ∧
    (logs_delete_loop env a l rep).1.resources_deleted =
      rep.resources_deleted ∧
    (logs_delete_loop env a l rep).1.resources_found = rep.resources_found := by
  induction l generalizing rep with
  | nil => exact ⟨rfl, rfl, rfl⟩
  | cons p rest ih =>
    obtain ⟨n, r⟩ := p
    simp only [logs_delete_loop]
    cases hlk : ((env r).deleteErr).lookup n with
    | some e =>
      refine ⟨?_, (ih _).2.1, (ih _).2.2⟩
      rw [(ih _).1]
      simp [CleanupReport.add_error]
    | none =>
      refine ⟨?_, (ih _).2.1, (ih _).2.2⟩
      rw [(ih _).1]
      simp [CleanupReport.add_success]
      omega

theorem ssm_add_batch_success_spec (a r : String) (batch : List String)
    (rep : CleanupReport) :
    (ssm_add_batch_success a r batch rep).successes.length =
      rep.successes.length + batch.length ∧
    (ssm_add_batch_success a r batch rep).resources_deleted =
      rep.resources_deleted ∧
    (ssm_add_batch_success a r batch rep).resources_found =
      rep.resources_found := by
  induction batch generalizing rep with
  | nil => exact ⟨rfl, rfl, rfl⟩
  | cons p rest ih =>
    simp only [ssm_add_batch_success]
    refine ⟨?_, (ih _).2.1, (ih _).2.2⟩
    rw [(ih _).1]
    simp [CleanupReport.add_success]
    omega

theorem ssm_add_batch_error_spec (a r e : String) (batch : List String)
    (rep : CleanupReport) :
    (ssm_add_batch_error a r e batch rep).successes.length =
      rep.successes.length ∧
    (ssm_add_batch_error a r e batch rep).resources_deleted =
      rep.resources_deleted ∧
    (ssm_add_batch_error a r e batch rep).resources_found =
      rep.resources_found := by
  induction batch generalizing rep with
  | nil => exact ⟨rfl, rfl, rfl⟩
  | cons p rest ih =>
    simp only [ssm_add_batch_error]
    refine ⟨?_, (ih _).2.1, (ih _).2.2⟩
    rw [(ih _).1]
    simp [CleanupReport.add_error]

theorem ssm_delete_batches_spec (benv : List (List String × String)) (a r : String)
    (batches : List (List String)) (rep : CleanupReport) :
    (ssm_delete_batches benv a r batches rep).1.successes.length =
      rep.successes.length + (ssm_delete_batches benv a r batches rep).2.2 ∧
    (ssm_delete_batches benv a r batches rep).1.resources_deleted =
      rep.resources_deleted ∧
    (ssm_delete_batches benv a r batches rep).1.resources_found =
      rep.resources_found := by
  induction batches generalizing rep with
  | nil => exact ⟨rfl, rfl, rfl⟩
  | cons batch rest ih =>
    simp only [ssm_delete_batches]
    cases hlk : benv.lookup batch with
    | some e =>
      dsimp only
      refine ⟨?_, ?_, ?_⟩
      · rw [(ih _).1, (ssm_add_batch_error_spec a r e batch rep).1]
      · rw [(ih _).2.1, (ssm_add_batch_error_spec a r e batch rep).2.1]
      · rw [(ih _).2.2, (ssm_add_batch_error_spec a r e batch rep).2.2]
    | none =>
      dsimp only
      refine ⟨?_, ?_, ?_⟩
      · rw [(ih _).1, (ssm_add_batch_success_spec a r batch rep).1]
        omega
      · rw [(ih _).2.1, (ssm_add_batch_success_spec a r batch rep).2.1]
      · rw [(ih _).2.2, (ssm_add_batch_success_spec a r batch rep).2.2]

theorem ssm_delete_regions_spec (env : String → SsmRegionEnv) (a : String)
    (found : List (String × String)) (regions : List String)
    (rep : CleanupReport) :
    (ssm_delete_regions env a found regions rep).1.successes.length =
      rep.successes.length + (ssm_delete_regions env a found regions rep).2.2 ∧
    (ssm_delete_regions env a found regions rep).1.resources_deleted =
      rep.resources_deleted ∧
    (ssm_delete_regions env a found regions rep).1.resources_found =
      rep.resources_found := by
  induction regions generalizing rep with
  | nil => exact ⟨rfl, rfl, rfl⟩
  | cons r rest ih =>
    simp only [ssm_delete_regions]
    refine ⟨?_, ?_, ?_⟩
    · rw [(ih _).1, (ssm_delete_batches_spec _ _ _ _ _).1]
      omega
    · rw [(ih _).2.1, (ssm_delete_batches_spec _ _ _ _ _).2.1]
    · rw [(ih _).2.2, (ssm_delete_batches_spec _ _ _ _ _).2.2]

theorem iam_delete_role_one_spec (spec : RoleSpec) (a : String)
    (rep : CleanupReport) :
    (iam_delete_role_one spec a rep).1.successes.length =
      rep.successes.length + (iam_delete_role_one spec a rep).2.2 ∧
    (iam_delete_role_one spec a rep).1.resources_deleted =
      rep.resources_deleted ∧
    (iam_delete_role_one spec a rep).1.resources_found =
      rep.resources_found := by
  simp only [iam_delete_role_one]
  cases hla : spec.listAttachedErr with
  | some e => simp [CleanupReport.add_error]
  | none =>
    cases hd : (detach_policies spec.name spec.attached).2 with
    | some e => simp [CleanupReport.add_error]
    | none =>
      cases hli : spec.listInlineErr with
      | some e => simp [CleanupReport.add_error]
      | none =>
        cases hi : (delete_inline_policies spec.name spec.inlinePolicies).2 with
        | some e => simp [CleanupReport.add_error]
        | none =>
          cases hdr : spec.deleteErr with
          | some e => simp [CleanupReport.add_error]
          | none => simp [CleanupReport.add_success]

theorem iam_delete_loop_spec (a : String) (l : List RoleSpec)
    (rep : CleanupReport) :
    (iam_delete_loop a l rep).1.successes.length =
      rep.successes.length + (iam_delete_loop a l rep).2.2 ∧
    (iam_delete_loop a l rep).1.resources_deleted = rep.resources_deleted ∧
    (iam_delete_loop a l rep).1.resources_found = rep.resources_found := by
  induction l generalizing rep with
  | nil => exact ⟨rfl, rfl, rfl⟩
  | cons spec rest ih =>
    simp only [iam_delete_loop]
    refine ⟨?_, ?_, ?_⟩
    · rw [(ih _).1, (iam_delete_role_one_spec spec a rep).1]
      omega
    · rw [(ih _).2.1, (iam_delete_role_one_spec spec a rep).2.1]
    · rw [(ih _).2.2, (iam_delete_role_one_spec spec a rep).2.2]

theorem s3_delete_bucket_one_succ (spec : BucketSpec) (a : String)
    (rep : CleanupReport) :
    (s3_delete_bucket_one spec a rep).1.successes.length =
      rep.successes.length + (s3_delete_bucket_one spec a rep).2.2 := by
  simp only [s3_delete_bucket_one]
  repeat' split
  all_goals simp [CleanupReport.add_error, CleanupReport.add_success]

theorem s3_delete_loop_succ (a : String) (l : List BucketSpec)
    (rep : CleanupReport) :
    (s3_delete_loop a l rep).1.successes.length =
      rep.successes.length + (s3_delete_loop a l rep).2.2 := by
  induction l generalizing rep with
  | nil => rfl
  | cons spec rest ih =>
    simp only [s3_delete_loop]
    rw [ih, s3_delete_bucket_one_succ]
    omega

theorem stackset_retract_batches_spec (spec : StackSetSpec) (a : String)
    (batches : List (List (String × String))) (rep : CleanupReport) :
    (stackset_retract_batches spec a batches rep).1.successes =
      rep.successes ∧
    (stackset_retract_batches spec a batches rep).1.resources_deleted =
      rep.resources_deleted ∧
    (stackset_retract_batches spec a batches rep).1.resources_found =
      rep.resources_found := by
  induction batches generalizing rep with
  | nil => exact ⟨rfl, rfl, rfl⟩
  | cons batch rest ih =>
    simp only [stackset_retract_batches]
    cases hlk : spec.instBatchErr.lookup batch with
    | some e =>
      refine ⟨?_, ?_, ?_⟩
      · rw [(ih _).1]
        rfl
      · rw [(ih _).2.1]
        rfl
      · rw [(ih _).2.2]
        rfl
    | none => exact ⟨(ih _).1, (ih _).2.1, (ih _).2.2⟩

theorem stackset_delete_one_spec (spec : StackSetSpec) (a : String)
    (rep : CleanupReport) :
    (stackset_delete_one spec a rep).1.successes.length =
      rep.successes.length + (stackset_delete_one spec a rep).2.2 ∧
    (stackset_delete_one spec a rep).1.resources_deleted =
      rep.resources_deleted ∧
    (stackset_delete_one spec a rep).1.resources_found =
      rep.resources_found := by
  simp only [stackset_delete_one]
  cases hli : spec.listInstancesErr with
  | some e => simp [CleanupReport.add_error]
  | none =>
    have hr := stackset_retract_batches_spec spec a (chunksOf 10 spec.instances) rep
    cases hdl : spec.deleteErr with
    | some e =>
      refine ⟨?_, ?_, ?_⟩
      · simp [CleanupReport.add_error, hr.1]
      · simp [CleanupReport.add_error, hr.2.1]
      · simp [CleanupReport.add_error, hr.2.2]
    | none =>
      refine ⟨?_, ?_, ?_⟩
      · simp [CleanupReport.add_success, hr.1]
      · simp [CleanupReport.add_success, hr.2.1]
      · simp [CleanupReport.add_success, hr.2.2]

theorem stackset_delete_loop_spec (a : String) (l : List StackSetSpec)
    (rep : CleanupReport) :
    (stackset_delete_loop a l rep).1.successes.length =
      rep.successes.length + (stackset_delete_loop a l rep).2.2 ∧
    (stackset_delete_loop a l rep).1.resources_deleted =
      rep.resources_deleted ∧
    (stackset_delete_loop a l rep).1.resources_found =
      rep.resources_found := by
  induction l generalizing rep with
  | nil => exact ⟨rfl, rfl, rfl⟩
  | cons spec rest ih =>
    simp only [stackset_delete_loop]
    refine ⟨?_, ?_, ?_⟩
    · rw [(ih _).1, (stackset_delete_one_spec spec a rep).1]
      omega
    · rw [(ih _).2.1, (stackset_delete_one_spec spec a rep).2.1]
    · rw [(ih _).2.2, (stackset_delete_one_spec spec a rep).2.2]

theorem lambda_handler_spec (env : String → RegionEnv) (a : String)
    (rep : CleanupReport) :
    (list_lambda_functions env a true rep).1.successes.length =
      rep.successes.length + (list_lambda_functions env a true rep).2.2 ∧
    ((list_lambda_functions env a true rep).1.resources_deleted =
        rep.resources_deleted ∨
      (list_lambda_functions env a true rep).1.resources_deleted =
        (reportKey a none, "Lambda Functions",
          (list_lambda_functions env a true rep).2.2) :: rep.resources_deleted) := by
  have hds := discover_regions_go_spec (fun r => ((env r).listErr, (env r).pages))
    a "Lambda Functions" SRA_REGIONS rep
  have hsucc : (discover_regions (fun r => ((env r).listErr, (env r).pages))
      a "Lambda Functions" rep).1.successes = rep.successes := hds.2.1
  have hdel : (discover_regions (fun r => ((env r).listErr, (env r).pages))
      a "Lambda Functions" rep).1.resources_deleted = rep.resources_deleted :=
    hds.1
  simp only [list_lambda_functions]
  set D := discover_regions (fun r => ((env r).listErr, (env r).pages))
    a "Lambda Functions" rep with hD
  cases hemp : D.2.isEmpty with
  | true =>
    simp only [hemp, if_true]
    exact ⟨by simp [hsucc], Or.inl hdel⟩
  | false =>
    simp only [hemp, Bool.false_eq_true, if_false, if_true]
    have hl := lambda_delete_loop_spec env a D.2 D.1
    refine ⟨?_, Or.inr ?_⟩
    · show (lambda_delete_loop env a D.2 D.1).1.successes.length =
        rep.successes.length + (lambda_delete_loop env a D.2 D.1).2.2
      rw [hl.1, hsucc]
    · show (reportKey a none, "Lambda Functions",
          (lambda_delete_loop env a D.2 D.1).2.2) ::
          (lambda_delete_loop env a D.2 D.1).1.resources_deleted =
        (reportKey a none, "Lambda Functions",
          (lambda_delete_loop env a D.2 D.1).2.2) :: rep.resources_deleted
      rw [hl.2.1, hdel]

theorem logs_handler_spec (env : String → RegionEnv) (a : String)
    (rep : CleanupReport) :
    (list_cloudwatch_log_groups env a true rep).1.successes.length =
      rep.successes.length + (list_cloudwatch_log_groups env a true rep).2.2 ∧
    ((list_cloudwatch_log_groups env a true rep).1.resources_deleted =
        rep.resources_deleted ∨
      (list_cloudwatch_log_groups env a true rep).1.resources_deleted =
        (reportKey a none, "CloudWatch Log Groups",
          (list_cloudwatch_log_groups env a true rep).2.2) ::
          rep.resources_deleted) := by
  have hds := discover_regions_go_spec (fun r => ((env r).listErr, (env r).pages))
    a "CloudWatch Log Groups" SRA_REGIONS rep
  have hsucc : (discover_regions (fun r => ((env r).listErr, (env r).pages))
      a "CloudWatch Log Groups" rep).1.successes = rep.successes := hds.2.1
  have hdel : (discover_regions (fun r => ((env r).listErr, (env r).pages))
      a "CloudWatch Log Groups" rep).1.resources_deleted = rep.resources_deleted :=
    hds.1
  simp only [list_cloudwatch_log_groups]
  set D := discover_regions (fun r => ((env r).listErr, (env r).pages))
    a "CloudWatch Log Groups" rep with hD
  cases hemp : D.2.isEmpty with
  | true =>
    simp only [hemp, if_true]
    exact ⟨by simp [hsucc], Or.inl hdel⟩
  | false =>
    simp only [hemp, Bool.false_eq_true, if_false, if_true]
    have hl := logs_delete_loop_spec env a D.2 D.1
    refine ⟨?_, Or.inr ?_⟩
    · show (logs_delete_loop env a D.2 D.1).1.successes.length =
        rep.successes.length + (logs_delete_loop env a D.2 D.1).2.2
      rw [hl.1, hsucc]
    · show (reportKey a none, "CloudWatch Log Groups",
          (logs_delete_loop env a D.2 D.1).2.2) ::
          (logs_delete_loop env a D.2 D.1).1.resources_deleted =
        (reportKey a none, "CloudWatch Log Groups",
          (logs_delete_loop env a D.2 D.1).2.2) :: rep.resources_deleted
      rw [hl.2.1, hdel]

theorem ssm_handler_spec (env : String → SsmRegionEnv) (a : String)
    (rep : CleanupReport) :
    (list_ssm_parameters env a true rep).1.successes.length =
      rep.successes.length + (list_ssm_parameters env a true rep).2.2 ∧
    ((list_ssm_parameters env a true rep).1.resources_deleted =
        rep.resources_deleted ∨
      (list_ssm_parameters env a true rep).1.resources_deleted =
        (reportKey a none, "SSM Parameters",
          (list_ssm_parameters env a true rep).2.2) :: rep.resources_deleted) := by
  have hds := discover_regions_go_spec (fun r => ((env r).listErr, (env r).pages))
    a "SSM Parameters" SRA_REGIONS rep
  have hsucc : (discover_regions (fun r => ((env r).listErr, (env r).pages))
      a "SSM Parameters" rep).1.successes = rep.successes := hds.2.1
  have hdel : (discover_regions (fun r => ((env r).listErr, (env r).pages))
      a "SSM Parameters" rep).1.resources_deleted = rep.resources_deleted :=
    hds.1
  simp only [list_ssm_parameters]
  set D := discover_regions (fun r => ((env r).listErr, (env r).pages))
    a "SSM Parameters" rep with hD
  cases hemp : D.2.isEmpty with
  | true =>
    simp only [hemp, if_true]
    exact ⟨by simp [hsucc], Or.inl hdel⟩
  | false =>
    simp only [hemp, Bool.false_eq_true, if_false, if_true]
    have hl := ssm_delete_regions_spec env a D.2 SRA_REGIONS D.1
    refine ⟨?_, Or.inr ?_⟩
    · show (ssm_delete_regions env a D.2 SRA_REGIONS D.1).1.successes.length =
        rep.successes.length + (ssm_delete_regions env a D.2 SRA_REGIONS D.1).2.2
      rw [hl.1, hsucc]
    · show (reportKey a none, "SSM Parameters",
          (ssm_delete_regions env a D.2 SRA_REGIONS D.1).2.2) ::
          (ssm_delete_regions env a D.2 SRA_REGIONS D.1).1.resources_deleted =
        (reportKey a none, "SSM Parameters",
          (ssm_delete_regions env a D.2 SRA_REGIONS D.1).2.2) ::
          rep.resources_deleted
      rw [hl.2.1, hdel]

theorem stacks_handler_spec (env : String → StackRegionEnv) (a : String)
    (rep : CleanupReport) :
    (list_cloudformation_stacks env a true rep).1.successes.length =
      rep.successes.length + (list_cloudformation_stacks env a true rep).2.2 ∧
    ((list_cloudformation_stacks env a true rep).1.resources_deleted =
        rep.resources_deleted ∨
      (list_cloudformation_stacks env a true rep).1.resources_deleted =
        (reportKey a none, "CloudFormation Stacks",
          (list_cloudformation_stacks env a true rep).2.2) ::
          rep.resources_deleted) := by
  have hds := discover_regions_go_spec
    (fun r => ((env r).listErr, [stack_list_response (env r)]))
    a "CloudFormation Stacks" SRA_REGIONS rep
  have hsucc : (discover_regions
      (fun r => ((env r).listErr, [stack_list_response (env r)]))
      a "CloudFormation Stacks" rep).1.successes = rep.successes := hds.2.1
  have hdel : (discover_regions
      (fun r => ((env r).listErr, [stack_list_response (env r)]))
      a "CloudFormation Stacks" rep).1.resources_deleted = rep.resources_deleted :=
    hds.1
  simp only [list_cloudformation_stacks]
  set D := discover_regions
    (fun r => ((env r).listErr, [stack_list_response (env r)]))
    a "CloudFormation Stacks" rep with hD
  cases hemp : D.2.isEmpty with
  | true =>
    simp only [hemp, if_true]
    exact ⟨by simp [hsucc], Or.inl hdel⟩
  | false =>
    simp only [hemp, Bool.false_eq_true, if_false, if_true]
    have hl := stack_delete_loop_succ env a D.2 D.1
    have hp := (stack_delete_loop_preserves env a D.2 D.1).2
    refine ⟨?_, Or.inr ?_⟩
    · show (stack_delete_loop env a D.2 D.1).1.successes.length =
        rep.successes.length + (stack_delete_loop env a D.2 D.1).2.2
      rw [hl, hsucc]
    · show (reportKey a none, "CloudFormation Stacks",
          (stack_delete_loop env a D.2 D.1).2.2) ::
          (stack_delete_loop env a D.2 D.1).1.resources_deleted =
        (reportKey a none, "CloudFormation Stacks",
          (stack_delete_loop env a D.2 D.1).2.2) :: rep.resources_deleted
      rw [hp, hdel]

theorem iam_handler_spec (env : IamEnv) (a : String) (rep : CleanupReport) :
    (list_iam_roles env a true rep).1.successes.length =
      rep.successes.length + (list_iam_roles env a true rep).2.2 ∧
    ((list_iam_roles env a true rep).1.resources_deleted =
        rep.resources_deleted ∨
      (list_iam_roles env a true rep).1.resources_deleted =
        (reportKey a none, "IAM Roles",
          (list_iam_roles env a true rep).2.2) :: rep.resources_deleted) := by
  simp only [list_iam_roles]
  cases hle : env.listErr with
  | some e =>
    exact ⟨by simp [CleanupReport.add_error], Or.inl rfl⟩
  | none =>
    cases hemp : (env.rolePages.flatten.filter (fun s => matchesSra s.name)).isEmpty with
    | true =>
      simp only [hemp, if_true]
      exact ⟨by simp, Or.inl (by simp)⟩
    | false =>
      simp only [hemp, Bool.false_eq_true, if_false, if_true]
      have hl := iam_delete_loop_spec a
        (env.rolePages.flatten.filter (fun s => matchesSra s.name))
        (rep.add_resource_found a "IAM Roles"
          (env.rolePages.flatten.filter (fun s => matchesSra s.name)).length none)
      refine ⟨?_, Or.inr ?_⟩
      · show (iam_delete_loop a
            (env.rolePages.flatten.filter (fun s => matchesSra s.name))
            (rep.add_resource_found a "IAM Roles"
              (env.rolePages.flatten.filter (fun s => matchesSra s.name)).length
              none)).1.successes.length = _
        rw [hl.1]
        rfl
      · show (reportKey a none, "IAM Roles", _) ::
            (iam_delete_loop a
              (env.rolePages.flatten.filter (fun s => matchesSra s.name))
              (rep.add_resource_found a "IAM Roles"
                (env.rolePages.flatten.filter (fun s => matchesSra s.name)).length
                none)).1.resources_deleted = _
        rw [hl.2.1]
        rfl

theorem s3_handler_spec (env : S3Env) (a : String) (rep : CleanupReport) :
    (list_s3_buckets env a true rep).1.successes.length =
      rep.successes.length + (list_s3_buckets env a true rep).2.2 ∧
    ((list_s3_buckets env a true rep).1.resources_deleted =
        rep.resources_deleted ∨
      (list_s3_buckets env a true rep).1.resources_deleted =
        (reportKey a none, "S3 Buckets",
          (list_s3_buckets env a true rep).2.2) :: rep.resources_deleted) := by
  simp only [list_s3_buckets]
  cases hle : env.listErr with
  | some e =>
    exact ⟨by simp [CleanupReport.add_error], Or.inl rfl⟩
  | none =>
    cases hemp : (env.buckets.filter (fun b => matchesSra b.name)).isEmpty with
    | true =>
      simp only [hemp, if_true]
      exact ⟨by simp, Or.inl (by simp)⟩
    | false =>
      simp only [hemp, Bool.false_eq_true, if_false, if_true]
      have hl := s3_delete_loop_succ a
        (env.buckets.filter (fun b => matchesSra b.name))
        (rep.add_resource_found a "S3 Buckets"
          (env.buckets.filter (fun b => matchesSra b.name)).length none)
      have hp := (s3_delete_loop_preserves a
        (env.buckets.filter (fun b => matchesSra b.name))
        (rep.add_resource_found a "S3 Buckets"
          (env.buckets.filter (fun b => matchesSra b.name)).length none)).2
      refine ⟨?_, Or.inr ?_⟩
      · show (s3_delete_loop a (env.buckets.filter (fun b => matchesSra b.name))
            (rep.add_resource_found a "S3 Buckets"
              (env.buckets.filter (fun b => matchesSra b.name)).length
              none)).1.successes.length = _
        rw [hl]
        rfl
      · show (reportKey a none, "S3 Buckets", _) ::
            (s3_delete_loop a (env.buckets.filter (fun b => matchesSra b.name))
              (rep.add_resource_found a "S3 Buckets"
                (env.buckets.filter (fun b => matchesSra b.name)).length
                none)).1.resources_deleted = _
        rw [hp]
        rfl

theorem stackset_handler_spec (env : StackSetEnv) (a : String)
    (rep : CleanupReport) :
    (list_cloudformation_stacksets env a true rep).1.successes.length =
      rep.successes.length + (list_cloudformation_stacksets env a true rep).2.2 ∧
    ((list_cloudformation_stacksets env a true rep).1.resources_deleted =
        rep.resources_deleted ∨
      (list_cloudformation_stacksets env a true rep).1.resources_deleted =
        (reportKey a none, "CloudFormation StackSets",
          (list_cloudformation_stacksets env a true rep).2.2) ::
          rep.resources_deleted) := by
  simp only [list_cloudformation_stacksets]
  cases hle : env.listErr with
  | some e =>
    exact ⟨by simp [CleanupReport.add_error], Or.inl rfl⟩
  | none =>
    cases hemp : (env.pages.flatten.filter
        (fun s => matchesSra s.name && s.status != "DELETED")).isEmpty with
    | true =>
      simp only [hemp, if_true]
      exact ⟨by simp, Or.inl (by simp)⟩
    | false =>
      simp only [hemp, Bool.false_eq_true, if_false, if_true]
      have hl := stackset_delete_loop_spec a
        (env.pages.flatten.filter
          (fun s => matchesSra s.name && s.status != "DELETED"))
        (rep.add_resource_found a "CloudFormation StackSets"
          (env.pages.flatten.filter
            (fun s => matchesSra s.name && s.status != "DELETED")).length none)
      refine ⟨?_, Or.inr ?_⟩
      · show (stackset_delete_loop a
            (env.pages.flatten.filter
              (fun s => matchesSra s.name && s.status != "DELETED"))
            (rep.add_resource_found a "CloudFormation StackSets"
              (env.pages.flatten.filter
                (fun s => matchesSra s.name && s.status != "DELETED")).length
              none)).1.successes.length = _
        rw [hl.1]
        rfl
      · show (reportKey a none, "CloudFormation StackSets", _) ::
            (stackset_delete_loop a
              (env.pages.flatten.filter
                (fun s => matchesSra s.name && s.status != "DELETED"))
              (rep.add_resource_found a "CloudFormation StackSets"
                (env.pages.flatten.filter
                  (fun s => matchesSra s.name && s.status != "DELETED")).length
                none)).1.resources_deleted = _
        rw [hl.2.1]
        rfl

/-- Claim C10: for every handler invocation in apply mode, the value of the
handler's `deleted_count` counter equals the number of success entries that
invocation appended to the report — the counter is incremented exactly when
a per-resource success entry is added, so an errored resource is never
counted — and what the handler records at the end is either nothing (no
resource discovered) or exactly that counter value under its resource
type.  Stated for all seven handlers. -/
theorem C10_deleted_counts :
    (∀ (env : String → StackRegionEnv) (a : String) (rep : CleanupReport),
      (list_cloudformation_stacks env a true rep).1.successes.length =
        rep.successes.length + (list_cloudformation_stacks env a true rep).2.2 ∧
      ((list_cloudformation_stacks env a true rep).1.resources_deleted =
          rep.resources_deleted ∨
        (list_cloudformation_stacks env a true rep).1.resources_deleted =
          (reportKey a none, "CloudFormation Stacks",
            (list_cloudformation_stacks env a true rep).2.2) ::
            rep.resources_deleted)) ∧
    (∀ (env : String → RegionEnv) (a : String) (rep : CleanupReport),
      (list_lambda_functions env a true rep).1.successes.length =
        rep.successes.length + (list_lambda_functions env a true rep).2.2 ∧
      ((list_lambda_functions env a true rep).1.resources_deleted =
          rep.resources_deleted ∨
        (list_lambda_functions env a true rep).1.resources_deleted =
          (reportKey a none, "Lambda Functions",
            (list_lambda_functions env a true rep).2.2) :: rep.resources_deleted)) ∧
    (∀ (env : IamEnv) (a : String) (rep : CleanupReport),
      (list_iam_roles env a true rep).1.successes.length =
        rep.successes.length + (list_iam_roles env a true rep).2.2 ∧
      ((list_iam_roles env a true rep).1.resources_deleted =
          rep.resources_deleted ∨
        (list_iam_roles env a true rep).1.resources_deleted =
          (reportKey a none, "IAM Roles",
            (list_iam_roles env a true rep).2.2) :: rep.resources_deleted)) ∧
    (∀ (env : String → SsmRegionEnv) (a : String) (rep : CleanupReport),
      (list_ssm_parameters env a true rep).1.successes.length =
        rep.successes.length + (list_ssm_parameters env a true rep).2.2 ∧
      ((list_ssm_parameters env a true rep).1.resources_deleted =
          rep.resources_deleted ∨
        (list_ssm_parameters env a true rep).1.resources_deleted =
          (reportKey a none, "SSM Parameters",
            (list_ssm_parameters env a true rep).2.2) :: rep.resources_deleted)) ∧
    (∀ (env : String → RegionEnv) (a : String) (rep : CleanupReport),
      (list_cloudwatch_log_groups env a true rep).1.successes.length =
        rep.successes.length + (list_cloudwatch_log_groups env a true rep).2.2 ∧
      ((list_cloudwatch_log_groups env a true rep).1.resources_deleted =
          rep.resources_deleted ∨
        (list_cloudwatch_log_groups env a true rep).1.resources_deleted =
          (reportKey a none, "CloudWatch Log Groups",
            (list_cloudwatch_log_groups env a true rep).2.2) ::
            rep.resources_deleted)) ∧
    (∀ (env : S3Env) (a : String) (rep : CleanupReport),
      (list_s3_buckets env a true rep).1.successes.length =
        rep.successes.length + (list_s3_buckets env a true rep).2.2 ∧
      ((list_s3_buckets env a true rep).1.resources_deleted =
          rep.resources_deleted ∨
        (list_s3_buckets env a true rep).1.resources_deleted =
          (reportKey a none, "S3 Buckets",
            (list_s3_buckets env a true rep).2.2) :: rep.resources_deleted)) ∧
    (∀ (env : StackSetEnv) (a : String) (rep : CleanupReport),
      (list_cloudformation_stacksets env a true rep).1.successes.length =
        rep.successes.length + (list_cloudformation_stacksets env a true rep).2.2 ∧
      ((list_cloudformation_stacksets env a true rep).1.resources_deleted =
          rep.resources_deleted ∨
        (list_cloudformation_stacksets env a true rep).1.resources_deleted =
          (reportKey a none, "CloudFormation StackSets",
            (list_cloudformation_stacksets env a true rep).2.2) ::
            rep.resources_deleted)) :=
  ⟨stacks_handler_spec, lambda_handler_spec, iam_handler_spec, ssm_handler_spec,
   logs_handler_spec, s3_handler_spec, stackset_handler_spec⟩

/-! ### Run-wide count invariant

The deleted counts are recorded under the region-less account key, so the
run-wide invariant relates them to the found counts recorded under all of
that account's keys.  The invariant is carried through every handler
invocation of every account of `mainRun`. -/

/-- The three account display names of the fixed catalog. -/
def ACCOUNT_NAMES : List String :=
  ["Master Account", "Audit Account", "Log Archive Account"]

/-- The found-count type tags recorded by the region-scoped handlers. -/
def REGION_TYPES : List String :=
  ["CloudFormation Stacks", "Lambda Functions", "SSM Parameters",
   "CloudWatch Log Groups"]

/-- The found-count type tags recorded by the account-global handlers. -/
def GLOBAL_TYPES : List String :=
  ["IAM Roles", "S3 Buckets", "CloudFormation StackSets"]

/-- An optional count entry (present iff the handler recorded one). -/
def optEntry (κ ty : String) : Option Nat → List (String × String × Nat)
  | none => []
  | some n => [(κ, ty, n)]

/-- The found-count entries one handler invocation for account `A` and
resource type `ty` pushes: an optional entry per region key (newest first)
and an optional entry for the region-less key. -/
def blockFound (A ty : String) (o1 o2 o0 : Option Nat) :
    List (String × String × Nat) :=
  optEntry (reportKey A (some "us-west-2")) ty o2 ++
  optEntry (reportKey A (some "us-east-1")) ty o1 ++
  optEntry (reportKey A none) ty o0

/-- Total found count recorded for `(a, ty)` across the account's keys. -/
def foundSum (rep : CleanupReport) (a ty : String) : Nat :=
  getCount rep.resources_found (reportKey a (some "us-east-1")) ty +
  getCount rep.resources_found (reportKey a (some "us-west-2")) ty +
  getCount rep.resources_found (reportKey a none) ty

/-- The run-wide invariant: for every account of the catalog and every
resource type, the deleted count under the region-less key is bounded by
the total found count across the account's keys. -/
def countInvariant (rep : CleanupReport) : Prop :=
  ∀ a ∈ ACCOUNT_NAMES, ∀ ty : String,
    getCount rep.resources_deleted (reportKey a none) ty ≤ foundSum rep a ty

/-- Every deleted-count entry lives under a catalog account name. -/
def delDomain (rep : CleanupReport) : Prop :=
  ∀ e ∈ rep.resources_deleted, e.1 ∈ ACCOUNT_NAMES

/-- Every found-count entry lives under a catalog account's key, region
keys for region-scoped types and the region-less key for global types. -/
def foundDomain (rep : CleanupReport) : Prop :=
  ∀ e ∈ rep.resources_found, ∃ A, A ∈ ACCOUNT_NAMES ∧
    (((e.1 = reportKey A (some "us-east-1") ∨
       e.1 = reportKey A (some "us-west-2")) ∧ e.2.1 ∈ REGION_TYPES) ∨
     (e.1 = reportKey A none ∧ e.2.1 ∈ GLOBAL_TYPES))

/-- The deleted slot for `(A, ty)` has not been written yet. -/
def delFresh (rep : CleanupReport) (A ty : String) : Prop :=
  rep.resources_deleted.find?
    (fun e => e.1 == reportKey A none && e.2.1 == ty) = none

theorem getCount_cons_self (κ ty : String) (v : Nat)
    (l : List (String × String × Nat)) :
    getCount ((κ, ty, v) :: l) κ ty = v := by
  simp [getCount, List.find?_cons]

theorem getCount_cons_ne (κ' ty' κ ty : String) (v : Nat)
    (l : List (String × String × Nat)) (h : ¬(κ' = κ ∧ ty' = ty)) :
    getCount ((κ', ty', v) :: l) κ ty = getCount l κ ty := by
  have hb : (κ' == κ && ty' == ty) = false := by
    by_cases hk : κ' = κ
    · subst hk
      have hty : ty' ≠ ty := fun he => h ⟨rfl, he⟩
      simp [beq_eq_false_iff_ne.mpr hty]
    · simp [beq_eq_false_iff_ne.mpr hk]
  simp [getCount, List.find?_cons, hb]

theorem getCount_optEntry_skip (κ' ty' κ ty : String) (o : Option Nat)
    (l : List (String × String × Nat)) (h : ¬(κ' = κ ∧ ty' = ty)) :
    getCount (optEntry κ' ty' o ++ l) κ ty = getCount l κ ty := by
  cases o with
  | none => rfl
  | some n => exact getCount_cons_ne κ' ty' κ ty n l h

theorem getCount_optEntry_ge (κ ty : String) (o : Option Nat)
    (l : List (String × String × Nat)) :
    o.getD 0 ≤ getCount (optEntry κ ty o ++ l) κ ty := by
  cases o with
  | none => exact Nat.zero_le _
  | some n =>
    rw [show optEntry κ ty (some n) ++ l = (κ, ty, n) :: l from rfl,
      getCount_cons_self]
    exact Nat.le_refl n

theorem find?_cons_false {α : Type} {p : α → Bool} (a : α) (l : List α)
    (h : p a = false) : List.find? p (a :: l) = List.find? p l := by
  simp [List.find?_cons, h]

theorem delFresh_getCount (rep : CleanupReport) (A ty : String)
    (h : delFresh rep A ty) :
    getCount rep.resources_deleted (reportKey A none) ty = 0 := by
  unfold delFresh at h
  simp [getCount, h]

/-- On the catalog names, the report keys are pairwise distinguishable:
two keys coincide exactly when account and region tag both coincide. -/
theorem reportKey_names_inj :
    ∀ a ∈ ACCOUNT_NAMES, ∀ A ∈ ACCOUNT_NAMES,
    ∀ ρ ∈ [(none : Option String), some "us-east-1", some "us-west-2"],
    ∀ ρ' ∈ [(none : Option String), some "us-east-1", some "us-west-2"],
      (reportKey a ρ = reportKey A ρ' ↔ a = A ∧ ρ = ρ') := by
  decide

/-- The region-less key of an account never equals one of its region keys. -/
theorem reportKey_none_ne_some (a r : String) :
    reportKey a none ≠ reportKey a (some r) := by
  intro h
  have hd := congrArg String.data h
  simp only [reportKey, String.data_append] at hd
  have hlen := congrArg List.length hd
  simp [List.length_append] at hlen

theorem optLen_getD {α : Type} (l : List α) :
    (if l.isEmpty then none else some l.length).getD 0 = l.length := by
  cases h : l.isEmpty with
  | true =>
    have : l = [] := by simpa [List.isEmpty_iff] using h
    simp [h, this]
  | false => simp [h]

/-- A report transformation that leaves both count lists untouched
preserves all four invariant components. -/
theorem counts_eq_preserves (rep rep' : CleanupReport)
    (hf : rep'.resources_found = rep.resources_found)
    (hd : rep'.resources_deleted = rep.resources_deleted) :
    (countInvariant rep → countInvariant rep') ∧
    (delDomain rep → delDomain rep') ∧
    (foundDomain rep → foundDomain rep') ∧
    (∀ A ty, delFresh rep A ty → delFresh rep' A ty) := by
  refine ⟨fun h a ha ty => ?_, fun h e he => ?_, fun h e he => ?_,
    fun A ty h => ?_⟩
  · have := h a ha ty
    simpa [foundSum, hf, hd] using this
  · exact h e (hd ▸ he)
  · exact h e (hf ▸ he)
  · unfold delFresh at *
    rw [hd]
    exact h

theorem lambda_delete_loop_le (env : String → RegionEnv) (a : String)
    (l : List (String × String)) (rep : CleanupReport) :
    (lambda_delete_loop env a l rep).2.2 ≤ l.length := by
  induction l generalizing rep with
  | nil => exact Nat.le_refl 0
  | cons p rest ih =>
    obtain ⟨n, r⟩ := p
    simp only [lambda_delete_loop, List.length_cons]
    cases hlk : ((env r).deleteErr).lookup n with
    | some e =>
      dsimp only
      have := ih (rep.add_error a "Lambda Function" n e (some r))
      omega
    | none =>
      dsimp only
      have := ih (rep.add_success a "Lambda Function" n (some r))
      omega

theorem logs_delete_loop_le (env : String → RegionEnv) (a : String)
    (l : List (String × String)) (rep : CleanupReport) :
    (logs_delete_loop env a l rep).2.2 ≤ l.length := by
  induction l generalizing rep with
  | nil => exact Nat.le_refl 0
  | cons p rest ih =>
    obtain ⟨n, r⟩ := p
    simp only [logs_delete_loop, List.length_cons]
    cases hlk : ((env r).deleteErr).lookup n with
    | some e =>
      dsimp only
      have := ih (rep.add_error a "CloudWatch Log Group" n e (some r))
      omega
    | none =>
      dsimp only
      have := ih (rep.add_success a "CloudWatch Log Group" n (some r))
      omega

theorem ssm_delete_batches_le (benv : List (List String × String))
    (a r : String) (batches : List (List String)) (rep : CleanupReport) :
    (ssm_delete_batches benv a r batches rep).2.2 ≤ batches.flatten.length := by
  induction batches generalizing rep with
  | nil => exact Nat.le_refl 0
  | cons batch rest ih =>
    simp only [ssm_delete_batches, List.flatten_cons, List.length_append]
    cases hlk : benv.lookup batch with
    | some e =>
      dsimp only
      have := ih (ssm_add_batch_error a r e batch rep)
      omega
    | none =>
      dsimp only
      have := ih (ssm_add_batch_success a r batch rep)
      omega

theorem ssm_delete_regions_le (env : String → SsmRegionEnv) (a : String)
    (found : List (String × String)) (regions : List String)
    (rep : CleanupReport) :
    (ssm_delete_regions env a found regions rep).2.2 ≤
      (regions.map (fun r =>
        ((found.filter (fun p => p.2 == r)).map (fun p => p.1)).length)).sum := by
  induction regions generalizing rep with
  | nil => exact Nat.le_refl 0
  | cons r rest ih =>
    simp only [ssm_delete_regions, List.map_cons, List.sum_cons]
    have h1 := ssm_delete_batches_le (env r).batchErr a r
      (chunksOf 10 ((found.filter (fun p => p.2 == r)).map (fun p => p.1))) rep
    rw [chunksOf_flatten] at h1
    have h2 := ih (ssm_delete_batches (env r).batchErr a r
      (chunksOf 10 ((found.filter (fun p => p.2 == r)).map (fun p => p.1))) rep).1
    omega

/-- The two region filters of the parameter grouping are disjoint. -/
theorem filter_regions_le (l : List (String × String)) :
    (l.filter (fun p => p.2 == "us-east-1")).length +
      (l.filter (fun p => p.2 == "us-west-2")).length ≤ l.length := by
  induction l with
  | nil => exact Nat.le_refl 0
  | cons p rest ih =>
    cases h1 : (p.2 == "us-east-1") with
    | true =>
      have h2 : (p.2 == "us-west-2") = false := by
        have := beq_iff_eq.mp h1
        rw [beq_eq_false_iff_ne]
        intro h
        rw [this] at h
        exact absurd h (by decide)
      simp only [List.filter_cons, h1, h2, Bool.false_eq_true, if_true,
        if_false, List.length_cons]
      omega
    | false =>
      cases h2 : (p.2 == "us-west-2") with
      | true =>
        simp only [List.filter_cons, h1, h2, Bool.false_eq_true, if_true,
          if_false, List.length_cons]
        omega
      | false =>
        simp only [List.filter_cons, h1, h2, Bool.false_eq_true, if_false,
          List.length_cons]
        omega

theorem iam_delete_role_one_le (spec : RoleSpec) (a : String)
    (rep : CleanupReport) : (iam_delete_role_one spec a rep).2.2 ≤ 1 := by
  simp only [iam_delete_role_one]
  cases hla : spec.listAttachedErr with
  | some e => exact Nat.zero_le 1
  | none =>
    cases hd : (detach_policies spec.name spec.attached).2 with
    | some e => exact Nat.zero_le 1
    | none =>
      cases hli : spec.listInlineErr with
      | some e => exact Nat.zero_le 1
      | none =>
        cases hi : (delete_inline_policies spec.name spec.inlinePolicies).2 with
        | some e => exact Nat.zero_le 1
        | none =>
          cases hdr : spec.deleteErr with
          | some e => exact Nat.zero_le 1
          | none => exact Nat.le_refl 1

theorem iam_delete_loop_le (a : String) (l : List RoleSpec)
    (rep : CleanupReport) : (iam_delete_loop a l rep).2.2 ≤ l.length := by
  induction l generalizing rep with
  | nil => exact Nat.le_refl 0
  | cons spec rest ih =>
    simp only [iam_delete_loop, List.length_cons]
    have h1 := iam_delete_role_one_le spec a rep
    have h2 := ih (iam_delete_role_one spec a rep).1
    omega

theorem stackset_delete_one_le (spec : StackSetSpec) (a : String)
    (rep : CleanupReport) : (stackset_delete_one spec a rep).2.2 ≤ 1 := by
  simp only [stackset_delete_one]
  cases hli : spec.listInstancesErr with
  | some e => exact Nat.zero_le 1
  | none =>
    cases hdl : spec.deleteErr with
    | some e => exact Nat.zero_le 1
    | none => exact Nat.le_refl 1

theorem stackset_delete_loop_le (a : String) (l : List StackSetSpec)
    (rep : CleanupReport) : (stackset_delete_loop a l rep).2.2 ≤ l.length := by
  induction l generalizing rep with
  | nil => exact Nat.le_refl 0
  | cons spec rest ih =>
    simp only [stackset_delete_loop, List.length_cons]
    have h1 := stackset_delete_one_le spec a rep
    have h2 := ih (stackset_delete_one spec a rep).1
    omega

/-- One handler invocation for account `A` and resource type `ty0` pushes a
`blockFound` group of found entries (region keys for region-scoped types,
the region-less key for global types) and at most one deleted entry, whose
value is bounded by the found counts it just pushed. -/
def HandlerBlock (A ty0 : String)
    (f : CleanupReport → CleanupReport × List Event × Nat) : Prop :=
  ∀ rep : CleanupReport, ∃ o1 o2 o0 n,
    ((ty0 ∈ REGION_TYPES ∧ o0 = none) ∨
      (ty0 ∈ GLOBAL_TYPES ∧ o1 = none ∧ o2 = none)) ∧
    (f rep).1.resources_found = blockFound A ty0 o1 o2 o0 ++ rep.resources_found ∧
    ((f rep).1.resources_deleted = rep.resources_deleted ∨
      ((f rep).1.resources_deleted =
        (reportKey A none, ty0, n) :: rep.resources_deleted ∧
        n ≤ o1.getD 0 + o2.getD 0 + o0.getD 0))

theorem foundEntries_eq_blockFound
    (g : String → Option String × List (List String)) (A ty : String) :
    foundEntries g A ty SRA_REGIONS = blockFound A ty
      (if (regionNames g "us-east-1").isEmpty then none
       else some (regionNames g "us-east-1").length)
      (if (regionNames g "us-west-2").isEmpty then none
       else some (regionNames g "us-west-2").length)
      none := by
  simp only [SRA_REGIONS, foundEntries, blockFound, optEntry]
  cases hn1 : (regionNames g "us-east-1").isEmpty <;>
    cases hn2 : (regionNames g "us-west-2").isEmpty <;>
    simp [hn1, hn2]

/-- The common shape of the four region-scoped handlers: discover over the
regions, then (in apply mode, when something was found) run the teardown
loop and record the deleted count under the region-less key. -/
def regionHandlerShape (g : String → Option String × List (List String))
    (td : List (String × String) → CleanupReport → CleanupReport × List Event × Nat)
    (A ty0 : String) (dm : Bool) (rep : CleanupReport) :
    CleanupReport × List Event × Nat :=
  let d := discover_regions g A ty0 rep
  if d.2.isEmpty then (d.1, [], 0)
  else if dm then
    let r := td d.2 d.1
    (r.1.add_resource_deleted A ty0 r.2.2 none, r.2.1, r.2.2)
  else (d.1, [], 0)

/-- The common shape of the three account-global handlers. -/
def globalHandlerShape {α : Type} (le : Option String) (sra : List α)
    (td : List α → CleanupReport → CleanupReport × List Event × Nat)
    (A ty0 : String) (dm : Bool) (rep : CleanupReport) :
    CleanupReport × List Event × Nat :=
  match le with
  | some e => (rep.add_error A ty0 "listado" e none, [], 0)
  | none =>
    if sra.isEmpty then (rep, [], 0)
    else
      let rep1 := rep.add_resource_found A ty0 sra.length none
      if dm then
        let r := td sra rep1
        (r.1.add_resource_deleted A ty0 r.2.2 none, r.2.1, r.2.2)
      else (rep1, [], 0)

theorem region_handler_block (A ty0 : String) (hty : ty0 ∈ REGION_TYPES)
    (g : String → Option String × List (List String))
    (td : List (String × String) → CleanupReport → CleanupReport × List Event × Nat)
    (htd_found : ∀ l r, (td l r).1.resources_found = r.resources_found)
    (htd_del : ∀ l r, (td l r).1.resources_deleted = r.resources_deleted)
    (htd_le : ∀ l r, (td l r).2.2 ≤ l.length) (dm : Bool) :
    HandlerBlock A ty0 (regionHandlerShape g td A ty0 dm) := by
  intro rep
  have hds := discover_regions_go_spec g A ty0 SRA_REGIONS rep
  have hfound : (discover_regions g A ty0 rep).1.resources_found =
      blockFound A ty0
        (if (regionNames g "us-east-1").isEmpty then none
         else some (regionNames g "us-east-1").length)
        (if (regionNames g "us-west-2").isEmpty then none
         else some (regionNames g "us-west-2").length)
        none ++ rep.resources_found := by
    rw [show (discover_regions g A ty0 rep).1.resources_found =
        foundEntries g A ty0 SRA_REGIONS ++ rep.resources_found from hds.2.2.1]
    rw [foundEntries_eq_blockFound]
  have hdel : (discover_regions g A ty0 rep).1.resources_deleted =
      rep.resources_deleted := hds.1
  have hlen : (discover_regions g A ty0 rep).2.length =
      (regionNames g "us-east-1").length + (regionNames g "us-west-2").length := by
    rw [show (discover_regions g A ty0 rep).2 =
        (SRA_REGIONS.map (fun r => (regionNames g r).map (fun n => (n, r)))).flatten
      from hds.2.2.2]
    simp [SRA_REGIONS]
  refine ⟨(if (regionNames g "us-east-1").isEmpty then none
           else some (regionNames g "us-east-1").length),
          (if (regionNames g "us-west-2").isEmpty then none
           else some (regionNames g "us-west-2").length),
          none,
          (td (discover_regions g A ty0 rep).2 (discover_regions g A ty0 rep).1).2.2,
          Or.inl ⟨hty, rfl⟩, ?_, ?_⟩
  · simp only [regionHandlerShape]
    cases hemp : (discover_regions g A ty0 rep).2.isEmpty with
    | true =>
      simp only [hemp, if_true]
      exact hfound
    | false =>
      simp only [hemp, Bool.false_eq_true, if_false]
      cases dm with
      | false =>
        simp only [Bool.false_eq_true, if_false]
        exact hfound
      | true =>
        simp only [if_true]
        rw [show ((td (discover_regions g A ty0 rep).2
            (discover_regions g A ty0 rep).1).1.add_resource_deleted A ty0
            (td (discover_regions g A ty0 rep).2
              (discover_regions g A ty0 rep).1).2.2 none).resources_found =
            (td (discover_regions g A ty0 rep).2
              (discover_regions g A ty0 rep).1).1.resources_found from rfl]
        rw [htd_found]
        exact hfound
  · simp only [regionHandlerShape]
    cases hemp : (discover_regions g A ty0 rep).2.isEmpty with
    | true =>
      simp only [hemp, if_true]
      exact Or.inl hdel
    | false =>
      simp only [hemp, Bool.false_eq_true, if_false]
      cases dm with
      | false =>
        simp only [Bool.false_eq_true, if_false]
        exact Or.inl hdel
      | true =>
        simp only [if_true]
        refine Or.inr ⟨?_, ?_⟩
        · rw [show ((td (discover_regions g A ty0 rep).2
              (discover_regions g A ty0 rep).1).1.add_resource_deleted A ty0
              (td (discover_regions g A ty0 rep).2
                (discover_regions g A ty0 rep).1).2.2 none).resources_deleted =
              (reportKey A none, ty0,
                (td (discover_regions g A ty0 rep).2
                  (discover_regions g A ty0 rep).1).2.2) ::
              (td (discover_regions g A ty0 rep).2
                (discover_regions g A ty0 rep).1).1.resources_deleted from rfl]
          rw [htd_del, hdel]
        · have hle := htd_le (discover_regions g A ty0 rep).2
            (discover_regions g A ty0 rep).1
          rw [hlen] at hle
          rw [optLen_getD, optLen_getD]
          simpa using hle

theorem global_handler_block {α : Type} (A ty0 : String) (hty : ty0 ∈ GLOBAL_TYPES)
    (le : Option String) (sra : List α)
    (td : List α → CleanupReport → CleanupReport × List Event × Nat)
    (htd_found : ∀ l r, (td l r).1.resources_found = r.resources_found)
    (htd_del : ∀ l r, (td l r).1.resources_deleted = r.resources_deleted)
    (htd_le : ∀ l r, (td l r).2.2 ≤ l.length) (dm : Bool) :
    HandlerBlock A ty0 (globalHandlerShape le sra td A ty0 dm) := by
  intro rep
  cases hle : le with
  | some e =>
    refine ⟨none, none, none, 0, Or.inr ⟨hty, rfl, rfl⟩, ?_, Or.inl rfl⟩
    simp [globalHandlerShape, blockFound, optEntry, CleanupReport.add_error]
  | none =>
    cases hemp : sra.isEmpty with
    | true =>
      refine ⟨none, none, none, 0, Or.inr ⟨hty, rfl, rfl⟩, ?_, ?_⟩
      · simp [globalHandlerShape, hemp, blockFound, optEntry]
      · simp [globalHandlerShape, hemp]
    | false =>
      refine ⟨none, none, some sra.length,
        (td sra (rep.add_resource_found A ty0 sra.length none)).2.2,
        Or.inr ⟨hty, rfl, rfl⟩, ?_, ?_⟩
      · simp only [globalHandlerShape, hemp, Bool.false_eq_true, if_false]
        cases dm with
        | false =>
          simp only [Bool.false_eq_true, if_false]
          simp [blockFound, optEntry, CleanupReport.add_resource_found]
        | true =>
          simp only [if_true]
          rw [show ((td sra (rep.add_resource_found A ty0 sra.length none)).1.add_resource_deleted
              A ty0 (td sra (rep.add_resource_found A ty0 sra.length none)).2.2
              none).resources_found =
              (td sra (rep.add_resource_found A ty0 sra.length none)).1.resources_found
            from rfl]
          rw [htd_found]
          simp [blockFound, optEntry, CleanupReport.add_resource_found]
      · simp only [globalHandlerShape, hemp, Bool.false_eq_true, if_false]
        cases dm with
        | false =>
          simp only [Bool.false_eq_true, if_false]
          exact Or.inl rfl
        | true =>
          simp only [if_true]
          refine Or.inr ⟨?_, ?_⟩
          · rw [show ((td sra (rep.add_resource_found A ty0 sra.length none)).1.add_resource_deleted
                A ty0 (td sra (rep.add_resource_found A ty0 sra.length none)).2.2
                none).resources_deleted =
                (reportKey A none, ty0,
                  (td sra (rep.add_resource_found A ty0 sra.length none)).2.2) ::
                (td sra (rep.add_resource_found A ty0 sra.length none)).1.resources_deleted
              from rfl]
            rw [htd_del]
            rfl
          · have hle2 := htd_le sra (rep.add_resource_found A ty0 sra.length none)
            simpa using hle2

/-! ### The seven handlers as `HandlerBlock` instances -/

theorem stacks_block (env : String → StackRegionEnv) (A : String) (dm : Bool) :
    HandlerBlock A "CloudFormation Stacks" (list_cloudformation_stacks env A dm) := by
  show HandlerBlock A "CloudFormation Stacks"
    (regionHandlerShape (fun r => ((env r).listErr, [stack_list_response (env r)]))
      (stack_delete_loop env A) A "CloudFormation Stacks" dm)
  exact region_handler_block A "CloudFormation Stacks" (by decide)
    (fun r => ((env r).listErr, [stack_list_response (env r)]))
    (stack_delete_loop env A)
    (fun l r => (stack_delete_loop_preserves env A l r).1)
    (fun l r => (stack_delete_loop_preserves env A l r).2)
    (stack_delete_loop_le env A) dm

theorem lambda_block (env : String → RegionEnv) (A : String) (dm : Bool) :
    HandlerBlock A "Lambda Functions" (list_lambda_functions env A dm) := by
  show HandlerBlock A "Lambda Functions"
    (regionHandlerShape (fun r => ((env r).listErr, (env r).pages))
      (lambda_delete_loop env A) A "Lambda Functions" dm)
  exact region_handler_block A "Lambda Functions" (by decide)
    (fun r => ((env r).listErr, (env r).pages))
    (lambda_delete_loop env A)
    (fun l r => (lambda_delete_loop_spec env A l r).2.2)
    (fun l r => (lambda_delete_loop_spec env A l r).2.1)
    (lambda_delete_loop_le env A) dm

theorem logs_block (env : String → RegionEnv) (A : String) (dm : Bool) :
    HandlerBlock A "CloudWatch Log Groups" (list_cloudwatch_log_groups env A dm) := by
  show HandlerBlock A "CloudWatch Log Groups"
    (regionHandlerShape (fun r => ((env r).listErr, (env r).pages))
      (logs_delete_loop env A) A "CloudWatch Log Groups" dm)
  exact region_handler_block A "CloudWatch Log Groups" (by decide)
    (fun r => ((env r).listErr, (env r).pages))
    (logs_delete_loop env A)
    (fun l r => (logs_delete_loop_spec env A l r).2.2)
    (fun l r => (logs_delete_loop_spec env A l r).2.1)
    (logs_delete_loop_le env A) dm

theorem ssm_block (env : String → SsmRegionEnv) (A : String) (dm : Bool) :
    HandlerBlock A "SSM Parameters" (list_ssm_parameters env A dm) := by
  show HandlerBlock A "SSM Parameters"
    (regionHandlerShape (fun r => ((env r).listErr, (env r).pages))
      (fun l r => ssm_delete_regions env A l SRA_REGIONS r)
      A "SSM Parameters" dm)
  refine region_handler_block A "SSM Parameters" (by decide)
    (fun r => ((env r).listErr, (env r).pages))
    (fun l r => ssm_delete_regions env A l SRA_REGIONS r)
    (fun l r => (ssm_delete_regions_spec env A l SRA_REGIONS r).2.2)
    (fun l r => (ssm_delete_regions_spec env A l SRA_REGIONS r).2.1)
    ?_ dm
  intro l r
  show (ssm_delete_regions env A l SRA_REGIONS r).2.2 ≤ l.length
  have h1 := ssm_delete_regions_le env A l SRA_REGIONS r
  have h2 := filter_regions_le l
  simp only [SRA_REGIONS, List.map_cons, List.map_nil, List.sum_cons,
    List.sum_nil, List.length_map] at h1 ⊢
  omega

theorem iam_block (env : IamEnv) (A : String) (dm : Bool) :
    HandlerBlock A "IAM Roles" (list_iam_roles env A dm) := by
  show HandlerBlock A "IAM Roles"
    (globalHandlerShape env.listErr
      (env.rolePages.flatten.filter (fun s => matchesSra s.name))
      (iam_delete_loop A) A "IAM Roles" dm)
  exact global_handler_block A "IAM Roles" (by decide) env.listErr
    (env.rolePages.flatten.filter (fun s => matchesSra s.name))
    (iam_delete_loop A)
    (fun l r => (iam_delete_loop_spec A l r).2.2)
    (fun l r => (iam_delete_loop_spec A l r).2.1)
    (iam_delete_loop_le A) dm

theorem s3_block (env : S3Env) (A : String) (dm : Bool) :
    HandlerBlock A "S3 Buckets" (list_s3_buckets env A dm) := by
  show HandlerBlock A "S3 Buckets"
    (globalHandlerShape env.listErr
      (env.buckets.filter (fun b => matchesSra b.name))
      (s3_delete_loop A) A "S3 Buckets" dm)
  exact global_handler_block A "S3 Buckets" (by decide) env.listErr
    (env.buckets.filter (fun b => matchesSra b.name))
    (s3_delete_loop A)
    (fun l r => (s3_delete_loop_preserves A l r).1)
    (fun l r => (s3_delete_loop_preserves A l r).2)
    (s3_delete_loop_le A) dm

theorem stackset_block (env : StackSetEnv) (A : String) (dm : Bool) :
    HandlerBlock A "CloudFormation StackSets" (list_cloudformation_stacksets env A dm) := by
  show HandlerBlock A "CloudFormation StackSets"
    (globalHandlerShape env.listErr
      (env.pages.flatten.filter (fun s => matchesSra s.name && s.status != "DELETED"))
      (stackset_delete_loop A) A "CloudFormation StackSets" dm)
  exact global_handler_block A "CloudFormation StackSets" (by decide) env.listErr
    (env.pages.flatten.filter (fun s => matchesSra s.name && s.status != "DELETED"))
    (stackset_delete_loop A)
    (fun l r => (stackset_delete_loop_spec A l r).2.2)
    (fun l r => (stackset_delete_loop_spec A l r).2.1)
    (stackset_delete_loop_le A) dm

/-! ### One handler block preserves the run-wide invariant -/

theorem reportKey_none_eq (a : String) : reportKey a none = a := rfl

theorem mem_optEntry {κ ty : String} {o : Option Nat} {e : String × String × Nat}
    (h : e ∈ optEntry κ ty o) : e.1 = κ ∧ e.2.1 = ty := by
  cases o with
  | none => cases h
  | some n =>
    have he : e = (κ, ty, n) := List.mem_singleton.mp h
    rw [he]
    exact ⟨rfl, rfl⟩

theorem blockFound_skip_keys (A a : String) (hA : A ∈ ACCOUNT_NAMES)
    (ha : a ∈ ACCOUNT_NAMES) (ty0 ty : String) (hne : ¬(a = A ∧ ty = ty0))
    (ρ ρ' : Option String)
    (hρ : ρ ∈ [(none : Option String), some "us-east-1", some "us-west-2"])
    (hρ' : ρ' ∈ [(none : Option String), some "us-east-1", some "us-west-2"]) :
    ¬(reportKey A ρ = reportKey a ρ' ∧ ty0 = ty) := by
  rintro ⟨hk, hty⟩
  have hAa := (reportKey_names_inj A hA a ha ρ hρ ρ' hρ').mp hk
  exact hne ⟨hAa.1.symm, hty.symm⟩

theorem getCount_blockFound_skip (A ty0 κ ty : String) (o1 o2 o0 : Option Nat)
    (l : List (String × String × Nat))
    (h2 : ¬(reportKey A (some "us-west-2") = κ ∧ ty0 = ty))
    (h1 : ¬(reportKey A (some "us-east-1") = κ ∧ ty0 = ty))
    (h0 : ¬(reportKey A none = κ ∧ ty0 = ty)) :
    getCount (blockFound A ty0 o1 o2 o0 ++ l) κ ty = getCount l κ ty := by
  simp only [blockFound, List.append_assoc]
  rw [getCount_optEntry_skip _ _ _ _ _ _ h2, getCount_optEntry_skip _ _ _ _ _ _ h1,
    getCount_optEntry_skip _ _ _ _ _ _ h0]

theorem foundSum_block_ge (A ty0 : String) (o1 o2 o0 : Option Nat)
    (l : List (String × String × Nat)) :
    o1.getD 0 + o2.getD 0 + o0.getD 0 ≤
      getCount (blockFound A ty0 o1 o2 o0 ++ l) (reportKey A (some "us-east-1")) ty0 +
      getCount (blockFound A ty0 o1 o2 o0 ++ l) (reportKey A (some "us-west-2")) ty0 +
      getCount (blockFound A ty0 o1 o2 o0 ++ l) (reportKey A none) ty0 := by
  have h1 : o1.getD 0 ≤
      getCount (blockFound A ty0 o1 o2 o0 ++ l) (reportKey A (some "us-east-1")) ty0 := by
    simp only [blockFound, List.append_assoc]
    rw [getCount_optEntry_skip _ _ _ _ _ _
      (fun hc => reportKey_region_ne A "us-west-2" "us-east-1" (by decide) hc.1)]
    exact getCount_optEntry_ge _ _ _ _
  have h2 : o2.getD 0 ≤
      getCount (blockFound A ty0 o1 o2 o0 ++ l) (reportKey A (some "us-west-2")) ty0 := by
    simp only [blockFound, List.append_assoc]
    exact getCount_optEntry_ge _ _ _ _
  have h0 : o0.getD 0 ≤
      getCount (blockFound A ty0 o1 o2 o0 ++ l) (reportKey A none) ty0 := by
    simp only [blockFound, List.append_assoc]
    rw [getCount_optEntry_skip _ _ _ _ _ _
        (fun hc => reportKey_none_ne_some A "us-west-2" hc.1.symm),
      getCount_optEntry_skip _ _ _ _ _ _
        (fun hc => reportKey_none_ne_some A "us-east-1" hc.1.symm)]
    exact getCount_optEntry_ge _ _ _ _
  omega

theorem block_preserves (A ty0 : String) (hA : A ∈ ACCOUNT_NAMES)
    (f : CleanupReport → CleanupReport × List Event × Nat)
    (hf : HandlerBlock A ty0 f) (rep : CleanupReport)
    (hci : countInvariant rep) (hdd : delDomain rep) (hfd : foundDomain rep)
    (hfr : delFresh rep A ty0) :
    countInvariant (f rep).1 ∧ delDomain (f rep).1 ∧ foundDomain (f rep).1 ∧
    (∀ B ty, ¬(B = A ∧ ty = ty0) → delFresh rep B ty → delFresh (f rep).1 B ty) := by
  obtain ⟨o1, o2, o0, n, hmode, hfound, hdel⟩ := hf rep
  refine ⟨?_, ?_, ?_, ?_⟩
  · intro a ha ty
    by_cases hmain : a = A ∧ ty = ty0
    · obtain ⟨rfl, rfl⟩ := hmain
      have hge : o1.getD 0 + o2.getD 0 + o0.getD 0 ≤ foundSum (f rep).1 a ty := by
        unfold foundSum
        rw [hfound]
        exact foundSum_block_ge a ty o1 o2 o0 rep.resources_found
      rcases hdel with hdel | ⟨hdel, hn⟩
      · rw [hdel, delFresh_getCount rep a ty hfr]
        exact Nat.zero_le _
      · rw [hdel, getCount_cons_self]
        exact Nat.le_trans hn hge
    · have hfs : foundSum (f rep).1 a ty = foundSum rep a ty := by
        unfold foundSum
        rw [hfound]
        rw [getCount_blockFound_skip A ty0 _ ty o1 o2 o0 _
            (blockFound_skip_keys A a hA ha ty0 ty hmain _ _ (by decide) (by decide))
            (blockFound_skip_keys A a hA ha ty0 ty hmain _ _ (by decide) (by decide))
            (blockFound_skip_keys A a hA ha ty0 ty hmain _ _ (by decide) (by decide)),
          getCount_blockFound_skip A ty0 _ ty o1 o2 o0 _
            (blockFound_skip_keys A a hA ha ty0 ty hmain _ _ (by decide) (by decide))
            (blockFound_skip_keys A a hA ha ty0 ty hmain _ _ (by decide) (by decide))
            (blockFound_skip_keys A a hA ha ty0 ty hmain _ _ (by decide) (by decide)),
          getCount_blockFound_skip A ty0 _ ty o1 o2 o0 _
            (blockFound_skip_keys A a hA ha ty0 ty hmain _ _ (by decide) (by decide))
            (blockFound_skip_keys A a hA ha ty0 ty hmain _ _ (by decide) (by decide))
            (blockFound_skip_keys A a hA ha ty0 ty hmain _ _ (by decide) (by decide))]
      have hds : getCount (f rep).1.resources_deleted (reportKey a none) ty =
          getCount rep.resources_deleted (reportKey a none) ty := by
        rcases hdel with hdel | ⟨hdel, _⟩
        · rw [hdel]
        · rw [hdel]
          refine getCount_cons_ne _ _ _ _ _ _ ?_
          rintro ⟨hk, hty⟩
          rw [reportKey_none_eq, reportKey_none_eq] at hk
          exact hmain ⟨hk.symm, hty.symm⟩
      rw [hds, hfs]
      exact hci a ha ty
  · intro e he
    rcases hdel with hdel | ⟨hdel, _⟩
    · rw [hdel] at he
      exact hdd e he
    · rw [hdel] at he
      rcases List.mem_cons.mp he with he | he
      · rw [he]
        exact hA
      · exact hdd e he
  · intro e he
    rw [hfound] at he
    rcases List.mem_append.mp he with he | he
    · rcases hmode with ⟨htyR, ho0⟩ | ⟨htyG, ho1, ho2⟩
      · rw [ho0] at he
        simp only [blockFound, optEntry, List.append_nil] at he
        rcases List.mem_append.mp he with he | he
        · obtain ⟨hk, hty⟩ := mem_optEntry he
          exact ⟨A, hA, Or.inl ⟨Or.inr hk, hty ▸ htyR⟩⟩
        · obtain ⟨hk, hty⟩ := mem_optEntry he
          exact ⟨A, hA, Or.inl ⟨Or.inl hk, hty ▸ htyR⟩⟩
      · rw [ho1, ho2] at he
        simp only [blockFound, optEntry, List.nil_append] at he
        obtain ⟨hk, hty⟩ := mem_optEntry he
        exact ⟨A, hA, Or.inr ⟨hk, hty ▸ htyG⟩⟩
    · exact hfd e he
  · intro B ty hne hfrB
    rcases hdel with hdel | ⟨hdel, _⟩
    · unfold delFresh
      rw [hdel]
      exact hfrB
    · unfold delFresh
      rw [hdel]
      have hp : (((reportKey A none, ty0, n).1 == reportKey B none) &&
          ((reportKey A none, ty0, n).2.1 == ty)) = false := by
        by_cases hB : B = A
        · have hty : ty0 ≠ ty := fun h => hne ⟨hB, h.symm⟩
          simp [beq_eq_false_iff_ne.mpr hty]
        · have hk : reportKey A none ≠ reportKey B none := by
            rw [reportKey_none_eq, reportKey_none_eq]
            exact fun h => hB h.symm
          simp [beq_eq_false_iff_ne.mpr hk]
      exact (find?_cons_false (reportKey A none, ty0, n)
        rep.resources_deleted hp).trans hfrB

/-! ### Chaining the blocks through `scan_account` and the account loop -/

/-- The three shape invariants carried through a run. -/
def InvTriple (rep : CleanupReport) : Prop :=
  countInvariant rep ∧ delDomain rep ∧ foundDomain rep

/-- Folding a list of handler blocks for one account with pairwise-distinct
resource types preserves the invariants, given that none of the account's
deleted slots for those types was written yet; deleted slots of other
accounts (or of types outside the list) stay unwritten. -/
theorem blocks_fold_preserves (A : String) (hA : A ∈ ACCOUNT_NAMES)
    (specs : List (String × (CleanupReport → CleanupReport × List Event × Nat)))
    (hblocks : ∀ p ∈ specs, HandlerBlock A p.1 p.2)
    (hnd : (specs.map (fun p => p.1)).Nodup)
    (rep : CleanupReport) (h : InvTriple rep)
    (hfr : ∀ ty ∈ specs.map (fun p => p.1), delFresh rep A ty) :
    InvTriple (specs.foldl (fun r p => (p.2 r).1) rep) ∧
    ∀ B ty, (B ≠ A ∨ ty ∉ specs.map (fun p => p.1)) → delFresh rep B ty →
      delFresh (specs.foldl (fun r p => (p.2 r).1) rep) B ty := by
  induction specs generalizing rep with
  | nil => exact ⟨h, fun B ty _ hf => hf⟩
  | cons p rest ih =>
    rw [List.map_cons, List.nodup_cons] at hnd
    have hp := hblocks p (List.mem_cons_self p rest)
    have hstep := block_preserves A p.1 hA p.2 hp rep h.1 h.2.1 h.2.2
      (hfr p.1 (by simp))
    have hfr' : ∀ ty ∈ rest.map (fun q => q.1), delFresh (p.2 rep).1 A ty := by
      intro ty hty
      refine hstep.2.2.2 A ty ?_ (hfr ty (by simp [hty]))
      rintro ⟨-, rfl⟩
      exact hnd.1 hty
    have hres := ih (fun q hq => hblocks q (List.mem_cons_of_mem p hq)) hnd.2
      (p.2 rep).1 ⟨hstep.1, hstep.2.1, hstep.2.2.1⟩ hfr'
    rw [List.foldl_cons]
    refine ⟨hres.1, ?_⟩
    intro B ty hcond hfB
    have h1 : delFresh (p.2 rep).1 B ty := by
      refine hstep.2.2.2 B ty ?_ hfB
      rintro ⟨rfl, rfl⟩
      rcases hcond with hc | hc
      · exact hc rfl
      · exact hc (by simp)
    refine hres.2 B ty ?_ h1
    rcases hcond with hc | hc
    · exact Or.inl hc
    · exact Or.inr (fun hm => hc (by simp [hm]))

/-- `handlerSpecs` with each entry tagged by the resource-type string its
handler records counts under. -/
def typedSpecs (account_key A : String) (env : AccountEnv) (dm : Bool) :
    List (String × (CleanupReport → CleanupReport × List Event × Nat)) :=
  [("CloudFormation Stacks", list_cloudformation_stacks env.stackEnv A dm),
   ("Lambda Functions", list_lambda_functions env.lambdaEnv A dm),
   ("IAM Roles", list_iam_roles env.iamEnv A dm),
   ("SSM Parameters", list_ssm_parameters env.ssmEnv A dm),
   ("CloudWatch Log Groups", list_cloudwatch_log_groups env.logsEnv A dm),
   ("S3 Buckets", list_s3_buckets env.s3Env A dm)] ++
  (if account_key == "master" then
    [("CloudFormation StackSets", list_cloudformation_stacksets env.stackSetEnv A dm)]
   else [])

theorem handlerSpecs_foldl (key A : String) (env : AccountEnv) (dm : Bool)
    (rep : CleanupReport) :
    (handlerSpecs key A env dm).foldl (fun r p => (p.2 r).1) rep =
    (typedSpecs key A env dm).foldl (fun r p => (p.2 r).1) rep := by
  cases h : (key == "master") with
  | true => simp [handlerSpecs, typedSpecs, h]
  | false => simp [handlerSpecs, typedSpecs, h]

theorem typedSpecs_blocks (key A : String) (env : AccountEnv) (dm : Bool) :
    ∀ p ∈ typedSpecs key A env dm, HandlerBlock A p.1 p.2 := by
  intro p hp
  cases h : (key == "master") with
  | true =>
    simp only [typedSpecs, h, if_true, List.mem_append, List.mem_cons,
      List.mem_singleton, List.not_mem_nil, or_false] at hp
    rcases hp with (rfl | rfl | rfl | rfl | rfl | rfl) | rfl
    · exact stacks_block env.stackEnv A dm
    · exact lambda_block env.lambdaEnv A dm
    · exact iam_block env.iamEnv A dm
    · exact ssm_block env.ssmEnv A dm
    · exact logs_block env.logsEnv A dm
    · exact s3_block env.s3Env A dm
    · exact stackset_block env.stackSetEnv A dm
  | false =>
    simp only [typedSpecs, h, Bool.false_eq_true, if_false, List.append_nil,
      List.mem_cons, List.not_mem_nil, or_false] at hp
    rcases hp with rfl | rfl | rfl | rfl | rfl | rfl
    · exact stacks_block env.stackEnv A dm
    · exact lambda_block env.lambdaEnv A dm
    · exact iam_block env.iamEnv A dm
    · exact ssm_block env.ssmEnv A dm
    · exact logs_block env.logsEnv A dm
    · exact s3_block env.s3Env A dm

theorem typedSpecs_nodup (key A : String) (env : AccountEnv) (dm : Bool) :
    ((typedSpecs key A env dm).map (fun p => p.1)).Nodup := by
  cases h : (key == "master") with
  | true =>
    simp only [typedSpecs, h, if_true, List.map_append, List.map_cons, List.map_nil]
    decide
  | false =>
    simp only [typedSpecs, h, Bool.false_eq_true, if_false, List.map_append,
      List.map_cons, List.map_nil]
    decide

/-- The report the handler sequence of `scan_account` produces is the left
fold of the handler functions (no modelled handler lets an exception
escape, so the sequence never stops early). -/
theorem runHandlers_toHandler_rep
    (fs : List (HandlerTag × (CleanupReport → CleanupReport × List Event × Nat)))
    (rep : CleanupReport) :
    (runHandlers (fs.map (fun p => (p.1, toHandler p.2))) rep).1 =
      fs.foldl (fun r p => (p.2 r).1) rep := by
  induction fs generalizing rep with
  | nil => rfl
  | cons p rest ih =>
    rcases hp : p.2 rep with ⟨rep1, r⟩
    rw [List.foldl_cons]
    simp only [List.map_cons, runHandlers, toHandler, hp]
    rw [ih rep1]

/-- The report `scan_account` returns: the connection error on session
failure, otherwise the fold of the account's handler blocks. -/
theorem scan_account_rep (key A : String) (env : AccountEnv) (dm : Bool)
    (rep : CleanupReport) :
    (scan_account A env.sessionOk (standardHandlers key A env dm) rep).1 =
      if env.sessionOk then
        (typedSpecs key A env dm).foldl (fun r p => (p.2 r).1) rep
      else
        rep.add_error A "Conexión" "sesión" "No se pudo establecer conexión" none := by
  cases hs : env.sessionOk with
  | false => simp [scan_account, hs]
  | true =>
    have hexc := (runHandlers_toHandler (handlerSpecs key A env dm) rep).2
    have hrep := runHandlers_toHandler_rep (handlerSpecs key A env dm) rep
    simp only [scan_account, hs, if_true, standardHandlers]
    rcases hR : runHandlers
        ((handlerSpecs key A env dm).map (fun p => (p.1, toHandler p.2))) rep
      with ⟨rep1, tr, tags, exc⟩
    rw [hR] at hexc hrep
    dsimp only at hexc hrep
    subst hexc
    rw [hR]
    dsimp only
    rw [hrep, handlerSpecs_foldl]

/-- One `scan_account` invocation preserves the invariants and leaves the
deleted slots of every other account unwritten. -/
theorem scan_preserves (key A : String) (hA : A ∈ ACCOUNT_NAMES)
    (env : AccountEnv) (dm : Bool) (rep : CleanupReport)
    (h : InvTriple rep) (hfr : ∀ ty, delFresh rep A ty) :
    InvTriple (scan_account A env.sessionOk (standardHandlers key A env dm) rep).1 ∧
    (∀ B ty, B ≠ A → delFresh rep B ty →
      delFresh (scan_account A env.sessionOk (standardHandlers key A env dm) rep).1 B ty) := by
  rw [scan_account_rep]
  cases hs : env.sessionOk with
  | false =>
    simp only [Bool.false_eq_true, if_false]
    have hc := counts_eq_preserves rep
      (rep.add_error A "Conexión" "sesión" "No se pudo establecer conexión" none)
      rfl rfl
    exact ⟨⟨hc.1 h.1, hc.2.1 h.2.1, hc.2.2.1 h.2.2⟩,
      fun B ty _ hfB => hc.2.2.2 B ty hfB⟩
  | true =>
    simp only [if_true]
    have hres := blocks_fold_preserves A hA (typedSpecs key A env dm)
      (typedSpecs_blocks key A env dm) (typedSpecs_nodup key A env dm) rep h
      (fun ty _ => hfr ty)
    exact ⟨hres.1, fun B ty hB hfB => hres.2 B ty (Or.inl hB) hfB⟩

/-- The account loop preserves the invariants over any tail of the catalog
whose display names are catalog names, pairwise distinct, and whose deleted
slots are unwritten. -/
theorem runAccounts_preserves (dm : Bool) (envOf : String → AccountEnv)
    (accts : List (String × String)) (rep : CleanupReport)
    (hmem : ∀ a ∈ accts, a.2 ∈ ACCOUNT_NAMES)
    (hnd : (accts.map (fun a => a.2)).Nodup)
    (h : InvTriple rep)
    (hfr : ∀ a ∈ accts, ∀ ty, delFresh rep a.2 ty) :
    InvTriple (runAccounts dm envOf accts rep).1 := by
  induction accts generalizing rep with
  | nil => exact h
  | cons a rest ih =>
    rw [List.map_cons, List.nodup_cons] at hnd
    have hstep := scan_preserves a.1 a.2 (hmem a (List.mem_cons_self a rest))
      (envOf a.1) dm rep h (hfr a (List.mem_cons_self a rest))
    simp only [runAccounts]
    refine ih _ (fun b hb => hmem b (List.mem_cons_of_mem a hb)) hnd.2 hstep.1 ?_
    intro b hb ty
    refine hstep.2 b.2 ty ?_ (hfr b (List.mem_cons_of_mem a hb) ty)
    intro hbe
    exact hnd.1 (hbe ▸ List.mem_map_of_mem (fun q => q.2) hb)

theorem emptyReport_inv : InvTriple emptyReport := by
  refine ⟨fun a _ ty => Nat.zero_le _, fun e he => absurd he (List.not_mem_nil e),
    fun e he => absurd he (List.not_mem_nil e)⟩

theorem emptyReport_fresh (A ty : String) : delFresh emptyReport A ty := rfl

/-- The final report of a whole run satisfies the invariants. -/
theorem mainRun_inv (dm : Bool) (envOf : String → AccountEnv) :
    InvTriple (mainRun dm envOf).1 := by
  refine runAccounts_preserves dm envOf ACCOUNTS emptyReport ?_ ?_ emptyReport_inv
    (fun a _ ty => emptyReport_fresh a.2 ty)
  · decide
  · decide

/-- No found count is ever recorded for a region-scoped type under the
region-less key of a catalog account. -/
theorem foundDomain_none_zero (rep : CleanupReport) (hfd : foundDomain rep)
    (a : String) (ha : a ∈ ACCOUNT_NAMES) (ty : String)
    (hty : ty ∉ GLOBAL_TYPES) :
    getCount rep.resources_found (reportKey a none) ty = 0 := by
  unfold getCount
  cases hf : rep.resources_found.find?
      (fun e => e.1 == reportKey a none && e.2.1 == ty) with
  | none => rfl
  | some e =>
    exfalso
    have hmem := List.mem_of_find?_eq_some hf
    have hpe := List.find?_some hf
    rw [Bool.and_eq_true, beq_iff_eq, beq_iff_eq] at hpe
    obtain ⟨A', hA', hcases⟩ := hfd e hmem
    rcases hcases with ⟨hkey, htyR⟩ | ⟨hkey, htyG⟩
    · rcases hkey with hkey | hkey
      · have hinj := (reportKey_names_inj A' hA' a ha (some "us-east-1")
          (by decide) none (by decide)).mp (hkey.symm.trans hpe.1)
        exact Option.noConfusion hinj.2
      · have hinj := (reportKey_names_inj A' hA' a ha (some "us-west-2")
          (by decide) none (by decide)).mp (hkey.symm.trans hpe.1)
        exact Option.noConfusion hinj.2
    · exact hty (hpe.2 ▸ htyG)

/-- No found count is ever recorded for an account-global type under a
region key of a catalog account. -/
theorem foundDomain_region_zero (rep : CleanupReport) (hfd : foundDomain rep)
    (a : String) (ha : a ∈ ACCOUNT_NAMES) (r : String)
    (hr : (some r : Option String) ∈
      [(none : Option String), some "us-east-1", some "us-west-2"])
    (ty : String) (hty : ty ∉ REGION_TYPES) :
    getCount rep.resources_found (reportKey a (some r)) ty = 0 := by
  unfold getCount
  cases hf : rep.resources_found.find?
      (fun e => e.1 == reportKey a (some r) && e.2.1 == ty) with
  | none => rfl
  | some e =>
    exfalso
    have hmem := List.mem_of_find?_eq_some hf
    have hpe := List.find?_some hf
    rw [Bool.and_eq_true, beq_iff_eq, beq_iff_eq] at hpe
    obtain ⟨A', hA', hcases⟩ := hfd e hmem
    rcases hcases with ⟨hkey, htyR⟩ | ⟨hkey, htyG⟩
    · exact hty (hpe.2 ▸ htyR)
    · have hinj := (reportKey_names_inj A' hA' a ha none (by decide)
        (some r) hr).mp (hkey.symm.trans hpe.1)
      exact Option.noConfusion hinj.2

/-- Claim C5 (amended): throughout any run (either mode, any provider
behaviour), deleted counts are recorded under the region-less account key,
and the invariant holds against the keys the found counts actually live
under: for every catalog account and every resource type the deleted count
under the account key is bounded by the sum of the found counts under the
account's two region keys plus its region-less key; in particular, for
region-scoped resource types it is bounded by the sum of the found counts
under the `(account, region)` keys, and for account-global types
`deleted ≤ found` holds under the same region-less key. -/
theorem C5_amended (dm : Bool) (envOf : String → AccountEnv)
    (a : String) (ha : a ∈ ACCOUNT_NAMES) (ty : String) :
    (getCount (mainRun dm envOf).1.resources_deleted (reportKey a none) ty ≤
      getCount (mainRun dm envOf).1.resources_found
        (reportKey a (some "us-east-1")) ty +
      getCount (mainRun dm envOf).1.resources_found
        (reportKey a (some "us-west-2")) ty +
      getCount (mainRun dm envOf).1.resources_found (reportKey a none) ty) ∧
    (ty ∈ REGION_TYPES →
      getCount (mainRun dm envOf).1.resources_deleted (reportKey a none) ty ≤
      getCount (mainRun dm envOf).1.resources_found
        (reportKey a (some "us-east-1")) ty +
      getCount (mainRun dm envOf).1.resources_found
        (reportKey a (some "us-west-2")) ty) ∧
    (ty ∈ GLOBAL_TYPES →
      getCount (mainRun dm envOf).1.resources_deleted (reportKey a none) ty ≤
      getCount (mainRun dm envOf).1.resources_found (reportKey a none) ty) := by
  have hinv := mainRun_inv dm envOf
  have hci := hinv.1 a ha ty
  unfold foundSum at hci
  refine ⟨hci, ?_, ?_⟩
  · intro htyR
    have hdisj : ∀ t ∈ REGION_TYPES, t ∉ GLOBAL_TYPES := by decide
    have hz := foundDomain_none_zero (mainRun dm envOf).1 hinv.2.2 a ha ty
      (hdisj ty htyR)
    omega
  · intro htyG
    have hdisj : ∀ t ∈ GLOBAL_TYPES, t ∉ REGION_TYPES := by decide
    have hz1 := foundDomain_region_zero (mainRun dm envOf).1 hinv.2.2 a ha
      "us-east-1" (by decide) ty (hdisj ty htyG)
    have hz2 := foundDomain_region_zero (mainRun dm envOf).1 hinv.2.2 a ha
      "us-west-2" (by decide) ty (hdisj ty htyG)
    omega

/-- A trivial provider for the C5 witness: sessions work, nothing exists. -/
def wEnvOf : String → AccountEnv := fun _ =>
  ⟨true, fun _ => ⟨none, 0, [], [], [], []⟩, fun _ => ⟨none, [], []⟩,
    ⟨none, []⟩, fun _ => ⟨none, [], []⟩, fun _ => ⟨none, [], []⟩,
    ⟨none, []⟩, ⟨none, []⟩⟩

/-- Witness for C5 at a concrete input: the amended invariant instantiated
for the master account and the stack resource type in apply mode. -/
theorem C5_amended_witness :
    "Master Account" ∈ ACCOUNT_NAMES ∧
    ((getCount (mainRun true wEnvOf).1.resources_deleted
        (reportKey "Master Account" none) "CloudFormation Stacks" ≤
      getCount (mainRun true wEnvOf).1.resources_found
        (reportKey "Master Account" (some "us-east-1")) "CloudFormation Stacks" +
      getCount (mainRun true wEnvOf).1.resources_found
        (reportKey "Master Account" (some "us-west-2")) "CloudFormation Stacks" +
      getCount (mainRun true wEnvOf).1.resources_found
        (reportKey "Master Account" none) "CloudFormation Stacks") ∧
    ("CloudFormation Stacks" ∈ REGION_TYPES →
      getCount (mainRun true wEnvOf).1.resources_deleted
        (reportKey "Master Account" none) "CloudFormation Stacks" ≤
      getCount (mainRun true wEnvOf).1.resources_found
        (reportKey "Master Account" (some "us-east-1")) "CloudFormation Stacks" +
      getCount (mainRun true wEnvOf).1.resources_found
        (reportKey "Master Account" (some "us-west-2")) "CloudFormation Stacks") ∧
    ("CloudFormation Stacks" ∈ GLOBAL_TYPES →
      getCount (mainRun true wEnvOf).1.resources_deleted
        (reportKey "Master Account" none) "CloudFormation Stacks" ≤
      getCount (mainRun true wEnvOf).1.resources_found
        (reportKey "Master Account" none) "CloudFormation Stacks")) :=
  ⟨by decide,
   C5_amended true wEnvOf "Master Account" (by decide) "CloudFormation Stacks"⟩
